import Mathlib

/-!
# random-fill: the random data provider, its refill controller and the fill driver

A shallow embedding of `main.go`.

* Machine integers are `Int`/`Nat` with explicit wrap-around (`wrapInt32`, `addUint64`, `subUint64`).
* The fixed-size arrays `tableUsage` and `tableData` are total maps on the index; only the
  indices below `TableSize` are ever addressed by the program.
* The buffered channel `chanRefill` is a FIFO list with capacity `TableSize`.
* What the program reads from its environment (entropy source, index stream, clock, outcome of
  file operations) is passed in as an argument.
-/

namespace RandomFill

/-! ## Constants -/

def TableSize : Nat := 4096
def RandDataSize : Nat := 4096
def StatRecordSize : Nat := 10

/-! ## Machine integers -/

/-- Two-complement wrap of an integer into the int32 range. -/
def wrapInt32 (x : Int) : Int := (2147483648 + x) % 4294967296 - 2147483648

/-- Two-complement wrap of an integer into the int64 range. -/
def wrapInt64 (x : Int) : Int :=
  (9223372036854775808 + x) % 18446744073709551616 - 9223372036854775808

/-- The function `binary.LittleEndian.Uint64` on a byte list (least significant byte first). -/
def littleEndianUint64 (b : List Nat) : Int := b.foldr (fun x acc => (x : Int) + 256 * acc) 0

/-! ## The provider -/

/-- The two pseudo-random streams of the provider. -/
inductive Mprng where
  | data
  | index
  deriving DecidableEq, Repr

/-- The struct `RandDataProvider`, together with the seed buffer `bufMprngSeed` that the closures
of `newRandDataProvider` share. A pseudo-random stream is represented by the seed it was last
given. -/
structure RandDataProvider where
  mprngData : Int
  mprngIndex : Int
  tableUsage : Nat → Int
  tableData : Nat → List Nat
  chanRefill : List Nat
  refillThreshold : Int
  bufMprngSeed : List Nat

/-- The function `io.ReadFull(r, buf)` for a reader that yields the bytes `src` and then fails:
the leading bytes of `buf` are overwritten, `buf` keeps its length, and an error is reported
when `src` is too short. The result is the buffer, the count `n` and the error flag. -/
def readFull (src buf : List Nat) : List Nat × Nat × Bool :=
  (src.take buf.length ++ buf.drop src.length, min src.length buf.length,
    decide (src.length < buf.length))

/-- The closure `seedMprng`: read 8 bytes of entropy (`src` is what the entropy source yields)
into the shared seed buffer, log on error and go on, and seed the stream with what the buffer
now holds. -/
def seedMprng (c : RandDataProvider) (which : Mprng) (src : List Nat) : RandDataProvider :=
  let buf := (readFull src c.bufMprngSeed).1
  let seed := wrapInt64 (littleEndianUint64 buf)
  match which with
  | Mprng.data => { c with bufMprngSeed := buf, mprngData := seed }
  | Mprng.index => { c with bufMprngSeed := buf, mprngIndex := seed }

/-- The closure `fillRandData`: reseed the content stream, read the buffer full from it
(`gen seed` is the byte stream the generator yields once seeded), log on error and go on, and
reset the usage counter. -/
def fillRandData (gen : Int → List Nat) (c : RandDataProvider) (i : Nat) (src : List Nat) :
    RandDataProvider :=
  let c1 := seedMprng c Mprng.data src
  let buf := (readFull (gen c1.mprngData) (c1.tableData i)).1
  { c1 with tableData := Function.update c1.tableData i buf,
            tableUsage := Function.update c1.tableUsage i 0 }

/-- The method `shouldRefill`. -/
def shouldRefill (c : RandDataProvider) (count : Int) : Bool :=
  decide (count > c.refillThreshold)

/-- The method `UseRandData` for the index `idx` drawn from the index stream. The counter is
incremented with int32 wrap-around (`atomic.AddInt32`). The send on the channel needs room: the
second component is the returned buffer, or `none` when the channel is full and the call stays
blocked in the send (the counter is already incremented then). -/
def UseRandData (c : RandDataProvider) (idx : Nat) : RandDataProvider × Option (List Nat) :=
  let count := wrapInt32 (c.tableUsage idx + 1)
  let c1 := { c with tableUsage := Function.update c.tableUsage idx count }
  if shouldRefill c1 count then
    if c1.chanRefill.length < TableSize then
      ({ c1 with chanRefill := c1.chanRefill ++ [idx] }, some (c1.tableData idx))
    else (c1, none)
  else (c1, some (c1.tableData idx))

/-- The state of the goroutine `refillLoop`: its local `stateCount` and the provider. -/
structure Controller where
  stateCount : Int
  rdp : RandDataProvider

/-- The pressure update of `refillLoop` (lines 76-90) on the pair `(stateCount, refillThreshold)`
for the observed channel length `q`. The threshold moves by `atomic.AddInt32`, which wraps; the
local `stateCount` is reset as soon as it exceeds `TableSize`, so its width plays no part. -/
def pressureUpdate (q : Nat) (p : Int × Int) : Int × Int :=
  let sc := p.1 + 1
  let thr := p.2
  if q > TableSize / 2 then
    if sc > (TableSize : Int) then (0, wrapInt32 (thr + 1)) else (sc, thr)
  else
    if sc > (TableSize : Int) then (0, if thr > 0 then wrapInt32 (thr + (-1)) else thr)
    else (sc, thr)

/-- One iteration of the body of `refillLoop`, for the dequeued index `i` and the channel length
`q` observed by `len(rdp.chanRefill)`; `src` is what the entropy source yields if the buffer is
refilled. -/
def refillTick (gen : Int → List Nat) (s : Controller) (i q : Nat) (src : List Nat) :
    Controller :=
  let p := pressureUpdate q (s.stateCount, s.rdp.refillThreshold)
  let c1 := { s.rdp with refillThreshold := p.2 }
  let c2 := if shouldRefill c1 (c1.tableUsage i) then fillRandData gen c1 i src else c1
  { stateCount := p.1, rdp := c2 }

/-- One iteration of `refillLoop` including the receive: the head of the channel is dequeued and
the length observed is that of the rest. With an empty channel the goroutine waits. -/
def refillLoopStep (gen : Int → List Nat) (s : Controller) (src : List Nat) :
    Option Controller :=
  match s.rdp.chanRefill with
  | [] => none
  | i :: rest => some (refillTick gen { s with rdp := { s.rdp with chanRefill := rest } } i
      rest.length src)

/-- The zero value of the struct after `make(chan int, TableSize)` and `make([]byte, 8)`, with
both streams created from `NewSource(0)`. -/
def zeroProvider : RandDataProvider :=
  { mprngData := 0, mprngIndex := 0, tableUsage := fun _ => 0, tableData := fun _ => [],
    chanRefill := [], refillThreshold := 0, bufMprngSeed := List.replicate 8 0 }

/-- The body of the construction loop of `newRandDataProvider` for index `i`. -/
def initEntry (gen : Int → List Nat) (seeds : Nat → List Nat) (c : RandDataProvider) (i : Nat) :
    RandDataProvider :=
  fillRandData gen
    { c with tableData := Function.update c.tableData i (List.replicate RandDataSize 0) } i
    (seeds (i + 2))

/-- The function `newRandDataProvider`; `seeds k` is what the entropy source yields on the
`k`-th call of `seedMprng`. -/
def newRandDataProvider (gen : Int → List Nat) (seeds : Nat → List Nat) : RandDataProvider :=
  let c1 := seedMprng zeroProvider Mprng.index (seeds 0)
  let c2 := seedMprng c1 Mprng.data (seeds 1)
  (List.range TableSize).foldl (initEntry gen seeds) c2

/-- What can happen to the provider: an iteration of `refillLoop` (with what the entropy source
yields if the iteration refills a buffer) or a call of `UseRandData` (with the index drawn). -/
inductive Event where
  | tick (src : List Nat)
  | use (idx : Nat)

/-- The effect of one event on the controller and provider. An iteration of `refillLoop`
receives its index from the channel and reads the length of what is left in it
(`refillLoopStep`); while the channel is empty the goroutine stays in the receive and nothing
changes. -/
def step (gen : Int → List Nat) (s : Controller) : Event → Controller
  | Event.tick src =>
    match refillLoopStep gen s src with
    | some s2 => s2
    | none => s
  | Event.use idx => { s with rdp := (UseRandData s.rdp idx).1 }

/-- The effect of a sequence of events. -/
def run (gen : Int → List Nat) (s : Controller) (es : List Event) : Controller :=
  es.foldl (step gen) s

/-- The controller at start-up: `stateCount = 0` over the freshly built provider. -/
def initController (gen : Int → List Nat) (seeds : Nat → List Nat) : Controller :=
  { stateCount := 0, rdp := newRandDataProvider gen seeds }

/-! ## The fill driver -/

/-- Addition of uint64 values. -/
def addUint64 (a b : Nat) : Nat := (a + b) % 18446744073709551616

/-- Subtraction `a - b` of uint64 values (both below `2^64`), wrapping around below zero. -/
def subUint64 (a b : Nat) : Nat :=
  if b ≤ a then a - b else 18446744073709551616 - (b - a)

/-- The struct `statRecord`; the time is in nanoseconds. -/
structure StatRecord where
  recordTime : Int
  writtenBytes : Nat
  deriving DecidableEq, Repr

/-- The integer inputs of the float64 part of the reporting block: the numerator of `speedAvg`
(`writtenTotal - statRecords[0].writtenBytes`, a uint64), `durAvg` in nanoseconds,
`remainingSize`, and the denominator of `remainingRatio` (`fillSize`, else `diskAvailSize`, else
`0` when the ratio keeps its zero value). -/
structure EstimateArgs where
  writtenDelta : Nat
  durAvg : Int
  remainingSize : Nat
  total : Nat
  deriving DecidableEq, Repr

/-- What the float64 part of the reporting block decides: `divByZero` when `speedAvg > 0` and
`uint64(speedAvg) = 0`, so that the integer division of line 224 panics; `nearly` when
`speedAvg < 50*1024 && remainingRatio < 0.001`. -/
structure Estimate where
  divByZero : Bool
  nearly : Bool
  deriving DecidableEq, Repr

/-- The float64 part of the reporting block read over the reals (no rounding), for a positive
`durAvg`; it is used to evaluate the driver on concrete inputs. The general results hold for
every interpretation `fl` of the float64 part. -/
def exactEstimate (a : EstimateArgs) : Estimate :=
  { divByZero := decide (0 < a.writtenDelta ∧ 1000000000 * (a.writtenDelta : Int) < a.durAvg),
    nearly := decide (1000000000 * (a.writtenDelta : Int) < 51200 * a.durAvg ∧
      (a.total = 0 ∨ 1000 * a.remainingSize < a.total)) }

/-- How a run over a given finite environment ends: normally, by a panic, by `os.Exit(1)`, or
still running when the environment given is used up. -/
inductive Outcome (α : Type) where
  | done (a : α)
  | panic
  | exit1
  | running

/-- The environment of one iteration of the write loop: the buffer `d` that
`rdp.UseRandData()` returns, the number of bytes the file system takes from the write, and the
reading of the clock after the write. -/
structure Iter where
  d : List Nat
  accept : Nat
  now : Int

/-- The method `f.Write(d)`: the bytes that reach the file, the count `n`, and the error flag,
which is set exactly when fewer than `len(d)` bytes were taken. -/
def fileWrite (d : List Nat) (accept : Nat) : List Nat × Nat × Bool :=
  (d.take accept, min accept d.length, decide (accept < d.length))

/-- The variables of the write loop: `statRecords`, `writtenTotal`, the content of the open
file, and a record of each `(writtenTotal, remainingSize)` the reporting block computed. -/
structure LoopState where
  statRecords : List StatRecord
  writtenTotal : Nat
  file : List Nat
  reports : List (Nat × Nat)

/-- The result of one iteration of the write loop. -/
inductive BodyResult where
  | next (st : LoopState)
  | stop (st : LoopState) (writeError : Bool)
  | panic

/-- The target check of lines 236-240 and the loop condition, for the value `loop` left by the
reporting block. -/
def targetCheck (fillSize : Nat) (st : LoopState) (loop : Bool) : BodyResult :=
  let loop2 := if fillSize > 0 ∧ st.writtenTotal ≥ fillSize then false else loop
  if loop2 then BodyResult.next st else BodyResult.stop st false

/-- The value of `remainingSize` the reporting block computes (lines 216-222). -/
def remainingSize (fillSize diskAvailSize writtenTotal : Nat) : Nat :=
  if fillSize > 0 then subUint64 fillSize writtenTotal
  else if diskAvailSize > 0 then subUint64 diskAvailSize writtenTotal
  else 0

/-- The denominator of `remainingRatio` (lines 216-222), `0` when it keeps its zero value. -/
def remainingTotal (fillSize diskAvailSize : Nat) : Nat :=
  if fillSize > 0 then fillSize else if diskAvailSize > 0 then diskAvailSize else 0

/-- One iteration of the write loop (lines 195-240). A write error leaves the loop by `break`
before the bytes are counted. The value `speed` only feeds the progress line and is left out;
of the report, what bears on control is kept: the division of line 224 and the nearly-full test
of line 228, both decided by the interpretation `fl` of the float64 arithmetic. -/
def loopBody (fl : EstimateArgs → Estimate) (fillSize diskAvailSize : Nat) (st : LoopState)
    (it : Iter) : BodyResult :=
  let w := fileWrite it.d it.accept
  let file := st.file ++ w.1
  if w.2.2 then BodyResult.stop { st with file := file } true
  else
    let written := addUint64 st.writtenTotal w.2.1
    match st.statRecords.getLast? with
    | none => BodyResult.panic
    | some last =>
      let dur := it.now - last.recordTime
      if dur > 1000000000 then
        let recs := st.statRecords ++ [{ recordTime := it.now, writtenBytes := written }]
        if recs.length ≥ StatRecordSize then
          match recs.head? with
          | none => BodyResult.panic
          | some first =>
            let rem := remainingSize fillSize diskAvailSize written
            let e := fl { writtenDelta := subUint64 written first.writtenBytes,
                          durAvg := it.now - first.recordTime,
                          remainingSize := rem,
                          total := remainingTotal fillSize diskAvailSize }
            if e.divByZero then BodyResult.panic
            else
              targetCheck fillSize
                { statRecords := recs.tail, writtenTotal := written, file := file,
                  reports := st.reports ++ [(written, rem)] } (!e.nearly)
        else
          targetCheck fillSize
            { st with statRecords := recs, writtenTotal := written, file := file } true
      else
        targetCheck fillSize { st with writtenTotal := written, file := file } true

/-- The write loop (lines 193-241) over the environment of its successive iterations. The
result is the final state and whether the loop was left by `break` on a write error. -/
def writeLoop (fl : EstimateArgs → Estimate) (fillSize diskAvailSize : Nat) :
    LoopState → List Iter → Outcome (LoopState × Bool)
  | _, [] => Outcome.running
  | st, it :: rest =>
    match loopBody fl fillSize diskAvailSize st it with
    | BodyResult.next st2 => writeLoop fl fillSize diskAvailSize st2 rest
    | BodyResult.stop st2 err => Outcome.done (st2, err)
    | BodyResult.panic => Outcome.panic

/-- The environment of one fill step: whether `os.Create` and `os.Remove` succeed, the clock
reading of line 192, and the environment of the write loop. -/
structure StepEnv where
  createOk : Bool
  start : Int
  iters : List Iter
  removeOk : Bool

/-- A record of one completed fill step: whether the target file was present when `os.Create`
ran, the sample window when the write loop began, `writtenTotal` and the file size at
`f.Close()`, whether the loop ended on a write error, the `(writtenTotal, remainingSize)` pairs
of the reporting block, and whether the file was removed. -/
structure StepLog where
  existedBefore : Bool
  window : List StatRecord
  writtenTotal : Nat
  fileSize : Nat
  writeError : Bool
  reports : List (Nat × Nat)
  removed : Bool
  deriving DecidableEq, Repr

/-- The state of the driver between fill steps: the target file in the file system (`none` when
absent), the slice `statRecords`, and the records of the steps done. -/
structure DriverState where
  file : Option (List Nat)
  statRecords : List StatRecord
  log : List StepLog

/-- The loop over the fill steps (lines 185-256) with `left` steps still to do, so that
`fillStep = fillCount - left + 1` and `fillStep != fillCount` reads `left != 1`. -/
def fillSteps (fl : EstimateArgs → Estimate) (fillSize diskAvailSize : Nat) :
    Nat → DriverState → List StepEnv → Outcome DriverState
  | 0, ds, _ => Outcome.done ds
  | _ + 1, _, [] => Outcome.running
  | left + 1, ds, e :: es =>
    if e.createOk then
      let recs := ds.statRecords ++ [{ recordTime := e.start, writtenBytes := 0 }]
      match writeLoop fl fillSize diskAvailSize
          { statRecords := recs, writtenTotal := 0, file := [], reports := [] } e.iters with
      | Outcome.done (st, err) =>
        let entry (removed : Bool) : StepLog :=
          { existedBefore := ds.file.isSome, window := recs, writtenTotal := st.writtenTotal,
            fileSize := st.file.length, writeError := err, reports := st.reports,
            removed := removed }
        if left ≠ 0 then
          if e.removeOk then
            fillSteps fl fillSize diskAvailSize left
              { file := none, statRecords := st.statRecords, log := ds.log ++ [entry true] } es
          else Outcome.panic
        else
          fillSteps fl fillSize diskAvailSize left
            { file := some st.file, statRecords := st.statRecords,
              log := ds.log ++ [entry false] } es
      | Outcome.panic => Outcome.panic
      | Outcome.exit1 => Outcome.exit1
      | Outcome.running => Outcome.running
    else Outcome.panic

/-- The function `main` from the validation of the count on, with the target file absent (as
checked at line 156) and the parsed `fillCount`, `fillSize` (`0` when not given) and
`diskAvailSize`. -/
def main (fl : EstimateArgs → Estimate) (fillCount : Int) (fillSize diskAvailSize : Nat)
    (envs : List StepEnv) : Outcome DriverState :=
  if fillCount ≤ 0 then Outcome.exit1
  else fillSteps fl fillSize diskAvailSize fillCount.toNat
    { file := none, statRecords := [], log := [] } envs

/-- The records of the fill steps of a run that ended normally (none otherwise). -/
def stepLogs (o : Outcome DriverState) : List StepLog :=
  match o with
  | Outcome.done ds => ds.log
  | _ => []

/-- The smallest multiple of `RandDataSize` that is at least `size`. -/
def roundUp (size : Nat) : Nat := RandDataSize * ((size + (RandDataSize - 1)) / RandDataSize)

/-- A buffer of `RandDataSize` zero bytes. -/
def zeroBuf : List Nat := List.replicate RandDataSize 0

/-- An iteration whose write of a full buffer succeeds, with the clock reading `now`. -/
def fullWrite (now : Int) : Iter :=
  { d := zeroBuf, accept := RandDataSize, now := now }

/-- An iteration whose write fails after `n` bytes (`n` below `RandDataSize`). -/
def failedWrite (n : Nat) (now : Int) : Iter :=
  { d := zeroBuf, accept := n, now := now }

/-- A fill step in which `os.Create` and `os.Remove` succeed. -/
def plainStep (start : Int) (iters : List Iter) : StepEnv :=
  { createOk := true, start := start, iters := iters, removeOk := true }

/-- A sequence of calls of `UseRandData`, one for each index drawn. -/
def useAll (c : RandDataProvider) (idxs : List Nat) : RandDataProvider :=
  idxs.foldl (fun c j => (UseRandData c j).1) c

/-- A provider with every counter at `u`, threshold `t`, the channel holding `ch`, and every
buffer of full length. -/
def sampleProvider (u t : Int) (ch : List Nat) : RandDataProvider :=
  { mprngData := 0, mprngIndex := 0, tableUsage := fun _ => u,
    tableData := fun _ => List.replicate RandDataSize 0, chanRefill := ch,
    refillThreshold := t, bufMprngSeed := List.replicate 8 0 }

/-- A controller with the given `stateCount` over `sampleProvider u t []`. -/
def sampleController (sc u t : Int) : Controller :=
  { stateCount := sc, rdp := sampleProvider u t [] }

/-- The bounds that every run of the controller and the calls keeps: the threshold is a
non-negative int32, `stateCount` lies in `0..TableSize`, the channel holds at most `TableSize`
indices, and at the largest int32 threshold `stateCount` and the channel length together do not
exceed `TableSize`. -/
def thresholdInv (s : Controller) : Prop :=
  0 ≤ s.rdp.refillThreshold ∧ s.rdp.refillThreshold ≤ 2147483647 ∧
    0 ≤ s.stateCount ∧ s.stateCount ≤ 4096 ∧ s.rdp.chanRefill.length ≤ 4096 ∧
    (s.rdp.refillThreshold = 2147483647 → s.stateCount + s.rdp.chanRefill.length ≤ 4096)

/-- A run of `n` rounds, each a call that draws index 0 followed by a controller iteration. -/
def useTickRounds : Nat → List Event
  | 0 => []
  | n + 1 => Event.use 0 :: Event.tick [] :: useTickRounds n

/-- A content stream for examples: `RandDataSize` bytes, each the seed reduced to a byte. -/
def sampleGen (seed : Int) : List Nat := List.replicate RandDataSize (seed % 256).toNat

/-! # Results -/

/-! ## Machine integers and reads -/

theorem wrapInt32_of_range (x : Int) (h1 : -2147483648 ≤ x) (h2 : x < 2147483648) :
    wrapInt32 x = x := by
  unfold wrapInt32
  omega

theorem readFull_length (src buf : List Nat) : (readFull src buf).1.length = buf.length := by
  simp only [readFull, List.length_append, List.length_take, List.length_drop]
  omega

/-! ## Frame of the closures -/

@[simp] theorem seedMprng_tableUsage (c : RandDataProvider) (w : Mprng) (src : List Nat) :
    (seedMprng c w src).tableUsage = c.tableUsage := by
  cases w <;> simp [seedMprng]

@[simp] theorem seedMprng_tableData (c : RandDataProvider) (w : Mprng) (src : List Nat) :
    (seedMprng c w src).tableData = c.tableData := by
  cases w <;> simp [seedMprng]

@[simp] theorem seedMprng_chanRefill (c : RandDataProvider) (w : Mprng) (src : List Nat) :
    (seedMprng c w src).chanRefill = c.chanRefill := by
  cases w <;> simp [seedMprng]

@[simp] theorem seedMprng_refillThreshold (c : RandDataProvider) (w : Mprng) (src : List Nat) :
    (seedMprng c w src).refillThreshold = c.refillThreshold := by
  cases w <;> simp [seedMprng]

@[simp] theorem fillRandData_tableUsage (gen : Int → List Nat) (c : RandDataProvider) (i : Nat)
    (src : List Nat) :
    (fillRandData gen c i src).tableUsage = Function.update c.tableUsage i 0 := by
  simp [fillRandData]

@[simp] theorem fillRandData_chanRefill (gen : Int → List Nat) (c : RandDataProvider) (i : Nat)
    (src : List Nat) : (fillRandData gen c i src).chanRefill = c.chanRefill := by
  simp [fillRandData]

@[simp] theorem fillRandData_refillThreshold (gen : Int → List Nat) (c : RandDataProvider)
    (i : Nat) (src : List Nat) :
    (fillRandData gen c i src).refillThreshold = c.refillThreshold := by
  simp [fillRandData]

theorem fillRandData_tableData_of_ne (gen : Int → List Nat) (c : RandDataProvider) (i j : Nat)
    (src : List Nat) (h : j ≠ i) : (fillRandData gen c i src).tableData j = c.tableData j := by
  simp [fillRandData, Function.update_noteq h]

theorem fillRandData_tableData_length (gen : Int → List Nat) (c : RandDataProvider) (i j : Nat)
    (src : List Nat) :
    ((fillRandData gen c i src).tableData j).length = (c.tableData j).length := by
  by_cases h : j = i
  · subst h
    simp [fillRandData, readFull_length]
  · rw [fillRandData_tableData_of_ne gen c i j src h]

/-! ## Construction -/

theorem initEntry_refillThreshold (gen : Int → List Nat) (seeds : Nat → List Nat)
    (c : RandDataProvider) (i : Nat) :
    (initEntry gen seeds c i).refillThreshold = c.refillThreshold := by
  simp [initEntry]

theorem initEntry_self (gen : Int → List Nat) (seeds : Nat → List Nat)
    (c : RandDataProvider) (i : Nat) :
    ((initEntry gen seeds c i).tableData i).length = RandDataSize ∧
      (initEntry gen seeds c i).tableUsage i = 0 := by
  constructor
  · unfold initEntry
    rw [fillRandData_tableData_length]
    simp
  · simp [initEntry]

theorem initEntry_of_ne (gen : Int → List Nat) (seeds : Nat → List Nat)
    (c : RandDataProvider) (i j : Nat) (h : j ≠ i) :
    (initEntry gen seeds c i).tableData j = c.tableData j ∧
      (initEntry gen seeds c i).tableUsage j = c.tableUsage j := by
  constructor
  · unfold initEntry
    rw [fillRandData_tableData_of_ne gen _ i j _ h]
    simp [Function.update_noteq h]
  · simp [initEntry, Function.update_noteq h]

theorem foldl_initEntry (gen : Int → List Nat) (seeds : Nat → List Nat)
    (c : RandDataProvider) (n : Nat) :
    ((List.range n).foldl (initEntry gen seeds) c).refillThreshold = c.refillThreshold ∧
      ∀ i, i < n →
        (((List.range n).foldl (initEntry gen seeds) c).tableData i).length = RandDataSize ∧
          ((List.range n).foldl (initEntry gen seeds) c).tableUsage i = 0 := by
  induction n with
  | zero => simp
  | succ n ih =>
    rw [List.range_succ, List.foldl_append]
    simp only [List.foldl_cons, List.foldl_nil]
    refine ⟨by rw [initEntry_refillThreshold]; exact ih.1, ?_⟩
    intro i hi
    by_cases h : i = n
    · subst h
      exact initEntry_self gen seeds _ i
    · have hlt : i < n := by omega
      have := initEntry_of_ne gen seeds ((List.range n).foldl (initEntry gen seeds) c) n i h
      rw [this.1, this.2]
      exact ih.2 i hlt

/-- C2. On return from `newRandDataProvider`, every buffer with index below `TableSize` has
exactly `RandDataSize` bytes and usage counter 0, and `refillThreshold` is 0, whatever the
entropy source and the content stream yield (reads that come up short included). -/
theorem newRandDataProvider_tables (gen : Int → List Nat) (seeds : Nat → List Nat) (i : Nat)
    (hi : i < TableSize) :
    ((newRandDataProvider gen seeds).tableData i).length = RandDataSize ∧
      (newRandDataProvider gen seeds).tableUsage i = 0 ∧
      (newRandDataProvider gen seeds).refillThreshold = 0 := by
  have h := foldl_initEntry gen seeds
    (seedMprng (seedMprng zeroProvider Mprng.index (seeds 0)) Mprng.data (seeds 1)) TableSize
  simp only [newRandDataProvider]
  refine ⟨(h.2 i hi).1, (h.2 i hi).2, ?_⟩
  rw [h.1, seedMprng_refillThreshold, seedMprng_refillThreshold]
  simp only [zeroProvider]

theorem newRandDataProvider_tables_witness :
    4095 < TableSize ∧
      ((newRandDataProvider (fun _ => []) (fun _ => [])).tableData 4095).length = RandDataSize ∧
      (newRandDataProvider (fun _ => []) (fun _ => [])).tableUsage 4095 = 0 ∧
      (newRandDataProvider (fun _ => []) (fun _ => [])).refillThreshold = 0 :=
  ⟨by simp [TableSize],
    newRandDataProvider_tables (fun _ => []) (fun _ => []) 4095 (by simp [TableSize])⟩

/-! ## One call of `UseRandData` -/

theorem useRandData_tableUsage (c : RandDataProvider) (j : Nat) :
    (UseRandData c j).1.tableUsage =
      Function.update c.tableUsage j (wrapInt32 (c.tableUsage j + 1)) := by
  unfold UseRandData
  simp only []
  split
  · split <;> rfl
  · rfl

theorem useRandData_tableData (c : RandDataProvider) (j : Nat) :
    (UseRandData c j).1.tableData = c.tableData := by
  unfold UseRandData
  simp only []
  split
  · split <;> rfl
  · rfl

theorem useRandData_refillThreshold (c : RandDataProvider) (j : Nat) :
    (UseRandData c j).1.refillThreshold = c.refillThreshold := by
  unfold UseRandData
  simp only []
  split
  · split <;> rfl
  · rfl

theorem useRandData_chanRefill (c : RandDataProvider) (j : Nat) :
    (UseRandData c j).1.chanRefill =
      if wrapInt32 (c.tableUsage j + 1) > c.refillThreshold ∧ c.chanRefill.length < TableSize
      then c.chanRefill ++ [j] else c.chanRefill := by
  unfold UseRandData
  simp only [shouldRefill, decide_eq_true_eq]
  by_cases h1 : wrapInt32 (c.tableUsage j + 1) > c.refillThreshold
  · by_cases h2 : c.chanRefill.length < TableSize
    · simp only [h1, h2, if_true, and_self]
    · simp only [h1, h2, if_true, if_false, and_false]
  · simp only [h1, if_false, false_and]

theorem useRandData_result (c : RandDataProvider) (j : Nat) :
    (UseRandData c j).2 =
      if wrapInt32 (c.tableUsage j + 1) > c.refillThreshold ∧ ¬ c.chanRefill.length < TableSize
      then none else some (c.tableData j) := by
  unfold UseRandData
  simp only [shouldRefill, decide_eq_true_eq]
  by_cases h1 : wrapInt32 (c.tableUsage j + 1) > c.refillThreshold
  · by_cases h2 : c.chanRefill.length < TableSize
    · simp only [h1, h2, if_true, not_true_eq_false, and_false, if_false]
    · simp only [h1, h2, if_true, if_false, not_false_eq_true, and_self]
  · simp only [h1, if_false, false_and]

/-- C3 (amended). For a counter below `2^31 - 1` and a channel with room whenever the index is
to be sent, one call of `UseRandData` that draws `i` raises `tableUsage[i]` by exactly 1, leaves
the other counters, every buffer and `refillThreshold` unchanged, appends `i` to the channel if
and only if the incremented counter exceeds `refillThreshold`, and returns `tableData[i]`. -/
theorem useRandData_effect (c : RandDataProvider) (i : Nat) (_hi : i < TableSize)
    (hlo : -2147483648 ≤ c.tableUsage i) (hhi : c.tableUsage i < 2147483647)
    (hroom : c.tableUsage i + 1 > c.refillThreshold → c.chanRefill.length < TableSize) :
    (UseRandData c i).1.tableUsage i = c.tableUsage i + 1 ∧
      (∀ j, j ≠ i → (UseRandData c i).1.tableUsage j = c.tableUsage j) ∧
      (UseRandData c i).1.tableData = c.tableData ∧
      (UseRandData c i).1.refillThreshold = c.refillThreshold ∧
      (UseRandData c i).1.chanRefill =
        (if c.tableUsage i + 1 > c.refillThreshold then c.chanRefill ++ [i]
         else c.chanRefill) ∧
      (UseRandData c i).2 = some (c.tableData i) := by
  have hw : wrapInt32 (c.tableUsage i + 1) = c.tableUsage i + 1 :=
    wrapInt32_of_range _ (by omega) (by omega)
  refine ⟨?_, ?_, useRandData_tableData c i, useRandData_refillThreshold c i, ?_, ?_⟩
  · rw [useRandData_tableUsage, Function.update_same, hw]
  · intro j hj
    rw [useRandData_tableUsage, Function.update_noteq hj]
  · rw [useRandData_chanRefill, hw]
    by_cases h : c.tableUsage i + 1 > c.refillThreshold
    · simp only [h, hroom h, and_self, if_true]
    · simp only [h, false_and, if_false]
  · rw [useRandData_result, hw]
    by_cases h : c.tableUsage i + 1 > c.refillThreshold
    · simp only [h, hroom h, not_true_eq_false, and_false, if_false]
    · simp only [h, false_and, if_false]

theorem sampleProvider_tableUsage (u t : Int) (ch : List Nat) (j : Nat) :
    (sampleProvider u t ch).tableUsage j = u := rfl

theorem sampleProvider_refillThreshold (u t : Int) (ch : List Nat) :
    (sampleProvider u t ch).refillThreshold = t := rfl

theorem sampleProvider_chanRefill (u t : Int) (ch : List Nat) :
    (sampleProvider u t ch).chanRefill = ch := rfl

theorem sampleProvider_tableData (u t : Int) (ch : List Nat) (j : Nat) :
    (sampleProvider u t ch).tableData j = List.replicate RandDataSize 0 := rfl

theorem useRandData_effect_witness :
    7 < TableSize ∧ (sampleProvider 0 0 []).tableUsage 7 < 2147483647 ∧
      (UseRandData (sampleProvider 0 0 []) 7).1.tableUsage 7 =
        (sampleProvider 0 0 []).tableUsage 7 + 1 ∧
      (∀ j, j ≠ 7 → (UseRandData (sampleProvider 0 0 []) 7).1.tableUsage j =
        (sampleProvider 0 0 []).tableUsage j) ∧
      (UseRandData (sampleProvider 0 0 []) 7).1.tableData = (sampleProvider 0 0 []).tableData ∧
      (UseRandData (sampleProvider 0 0 []) 7).1.refillThreshold =
        (sampleProvider 0 0 []).refillThreshold ∧
      (UseRandData (sampleProvider 0 0 []) 7).1.chanRefill =
        (if (sampleProvider 0 0 []).tableUsage 7 + 1 > (sampleProvider 0 0 []).refillThreshold
         then (sampleProvider 0 0 []).chanRefill ++ [7]
         else (sampleProvider 0 0 []).chanRefill) ∧
      (UseRandData (sampleProvider 0 0 []) 7).2 = some ((sampleProvider 0 0 []).tableData 7) :=
  ⟨by simp [TableSize], by simp [sampleProvider_tableUsage],
    useRandData_effect (sampleProvider 0 0 []) 7 (by simp [TableSize])
      (by simp [sampleProvider_tableUsage]) (by simp [sampleProvider_tableUsage])
      (by simp [sampleProvider_chanRefill, TableSize])⟩

/-- C3 (counterexample). At `tableUsage[0] = 2^31 - 1` the call does not raise the counter by 1:
it wraps to `-2^31` (and nothing is appended). With a full channel and the counter above the
threshold the call does not return: it stays blocked in the send. -/
theorem useRandData_not_plus_one :
    (UseRandData (sampleProvider 2147483647 0 []) 0).1.tableUsage 0 = -2147483648 ∧
      (UseRandData (sampleProvider 2147483647 0 []) 0).1.tableUsage 0 ≠
        (sampleProvider 2147483647 0 []).tableUsage 0 + 1 ∧
      (UseRandData (sampleProvider 0 0 (List.replicate TableSize 0)) 0).2 = none := by
  refine ⟨?_, ?_, ?_⟩
  · rw [useRandData_tableUsage, Function.update_same, sampleProvider_tableUsage]
    simp [wrapInt32]
  · rw [useRandData_tableUsage, Function.update_same, sampleProvider_tableUsage]
    simp [wrapInt32]
  · rw [useRandData_result, sampleProvider_tableUsage, sampleProvider_refillThreshold,
      sampleProvider_chanRefill, List.length_replicate]
    simp [wrapInt32]

/-! ## Sequences of calls -/

theorem useAll_cons (c : RandDataProvider) (j : Nat) (rest : List Nat) :
    useAll c (j :: rest) = useAll (UseRandData c j).1 rest := rfl

theorem useAll_refillThreshold (idxs : List Nat) :
    ∀ c : RandDataProvider, (useAll c idxs).refillThreshold = c.refillThreshold := by
  induction idxs with
  | nil => intro c; rfl
  | cons j rest ih =>
    intro c
    rw [useAll_cons, ih, useRandData_refillThreshold]

theorem useRandData_chanRefill_length (c : RandDataProvider) (j : Nat) :
    (UseRandData c j).1.chanRefill.length ≤ c.chanRefill.length + 1 := by
  rw [useRandData_chanRefill]
  split
  · simp
  · omega

theorem useAll_count (i : Nat) (idxs : List Nat) :
    ∀ c : RandDataProvider, 0 ≤ c.tableUsage i →
      c.tableUsage i + (idxs.count i : Int) < 2147483648 →
      c.chanRefill.length + idxs.length ≤ TableSize →
      (((useAll c idxs).chanRefill.count i : Nat) : Int) =
        (c.chanRefill.count i : Int) +
          (max 0 (c.tableUsage i + (idxs.count i : Int) - c.refillThreshold)
            - max 0 (c.tableUsage i - c.refillThreshold)) := by
  induction idxs with
  | nil =>
    intro c _ _ _
    simp [useAll]
  | cons j rest ih =>
    intro c h0 hmax hroom
    rw [useAll_cons]
    have hlen := useRandData_chanRefill_length c j
    simp only [List.length_cons] at hroom
    have hroom2 : (UseRandData c j).1.chanRefill.length + rest.length ≤ TableSize := by omega
    have hfree : c.chanRefill.length < TableSize := by omega
    by_cases hj : j = i
    · subst hj
      have hc : (j :: rest).count j = rest.count j + 1 := by simp
      rw [hc] at hmax ⊢
      push_cast at hmax ⊢
      have hw : wrapInt32 (c.tableUsage j + 1) = c.tableUsage j + 1 :=
        wrapInt32_of_range _ (by omega) (by omega)
      have hu : (UseRandData c j).1.tableUsage j = c.tableUsage j + 1 := by
        rw [useRandData_tableUsage, Function.update_same, hw]
      have h := ih (UseRandData c j).1 (by rw [hu]; omega) (by rw [hu]; omega) hroom2
      rw [h, hu, useRandData_refillThreshold, useRandData_chanRefill, hw]
      by_cases hgt : c.tableUsage j + 1 > c.refillThreshold
      · simp only [hgt, hfree, and_self, if_true, List.count_append, List.count_singleton_self]
        push_cast
        omega
      · simp only [hgt, false_and, if_false]
        omega
    · have hc : (j :: rest).count i = rest.count i := by
        simp [List.count_cons, hj]
      rw [hc] at hmax ⊢
      have hu : (UseRandData c j).1.tableUsage i = c.tableUsage i := by
        rw [useRandData_tableUsage, Function.update_noteq (Ne.symm hj)]
      have h := ih (UseRandData c j).1 (by rw [hu]; omega) (by rw [hu]; omega) hroom2
      rw [h, hu, useRandData_refillThreshold, useRandData_chanRefill]
      have hcnt : ([j] : List Nat).count i = 0 := by
        simp [List.count_cons, hj]
      split
      · rw [List.count_append, hcnt]
        push_cast
        omega
      · omega

/-- C5 (amended). The index is sent on every call whose incremented counter exceeds the
threshold, not only on the call that crosses it: for calls made after buffer `i` was filled
(counter 0), with `refillThreshold = T ≥ 0` held fixed and room in the channel, the first `T`
calls that draw `i` append nothing and every later one appends `i` once more, so the calls
leave `max (n - T) 0` new entries `i`, where `n` is the number of calls that drew `i`. -/
theorem useAll_enqueue_count (c : RandDataProvider) (i : Nat) (idxs : List Nat)
    (_hi : i < TableSize) (hu : c.tableUsage i = 0) (ht : 0 ≤ c.refillThreshold)
    (hroom : c.chanRefill.length + idxs.length ≤ TableSize) :
    (useAll c idxs).refillThreshold = c.refillThreshold ∧
      (useAll c idxs).chanRefill.count i =
        c.chanRefill.count i + (idxs.count i - c.refillThreshold.toNat) := by
  refine ⟨useAll_refillThreshold idxs c, ?_⟩
  have hcl : idxs.count i ≤ idxs.length := List.count_le_length i idxs
  have hT : TableSize = 4096 := rfl
  have h := useAll_count i idxs c (by omega) (by rw [hu]; omega) hroom
  rw [hu] at h
  omega

theorem useAll_enqueue_count_witness :
    5 < TableSize ∧ (sampleProvider 0 1 []).tableUsage 5 = 0 ∧
      (0 : Int) ≤ (sampleProvider 0 1 []).refillThreshold ∧
      (useAll (sampleProvider 0 1 []) [5, 5, 5, 2]).refillThreshold =
        (sampleProvider 0 1 []).refillThreshold ∧
      (useAll (sampleProvider 0 1 []) [5, 5, 5, 2]).chanRefill.count 5 =
        (sampleProvider 0 1 []).chanRefill.count 5 +
          (([5, 5, 5, 2] : List Nat).count 5 - (sampleProvider 0 1 []).refillThreshold.toNat) :=
  ⟨by simp [TableSize], sampleProvider_tableUsage 0 1 [] 5,
    by simp [sampleProvider_refillThreshold],
    useAll_enqueue_count (sampleProvider 0 1 []) 5 [5, 5, 5, 2] (by simp [TableSize])
      (sampleProvider_tableUsage 0 1 [] 5) (by simp [sampleProvider_refillThreshold])
      (by simp [sampleProvider_chanRefill, TableSize])⟩

/-- C5 (counterexample). From a freshly filled table with threshold 0, two calls that draw
index 0 both append it: the channel then holds index 0 twice. -/
theorem useAll_enqueues_twice :
    (useAll (sampleProvider 0 0 []) [0, 0]).chanRefill = [0, 0] := by
  rw [useAll_cons, useAll_cons]
  simp only [useAll, List.foldl_nil]
  rw [useRandData_chanRefill, useRandData_tableUsage, useRandData_refillThreshold,
    useRandData_chanRefill, Function.update_same]
  simp [sampleProvider, wrapInt32, TableSize]

/-! ## One controller iteration -/

theorem refillTick_stateCount (gen : Int → List Nat) (s : Controller) (i q : Nat)
    (src : List Nat) :
    (refillTick gen s i q src).stateCount =
      (pressureUpdate q (s.stateCount, s.rdp.refillThreshold)).1 := rfl

theorem refillTick_refillThreshold (gen : Int → List Nat) (s : Controller) (i q : Nat)
    (src : List Nat) :
    (refillTick gen s i q src).rdp.refillThreshold =
      (pressureUpdate q (s.stateCount, s.rdp.refillThreshold)).2 := by
  unfold refillTick
  simp only []
  split
  · rw [fillRandData_refillThreshold]
  · rfl

theorem refillTick_filled (gen : Int → List Nat) (s : Controller) (i q : Nat)
    (src : List Nat)
    (h : s.rdp.tableUsage i > (refillTick gen s i q src).rdp.refillThreshold) :
    (refillTick gen s i q src).rdp =
      fillRandData gen
        { s.rdp with
          refillThreshold := (pressureUpdate q (s.stateCount, s.rdp.refillThreshold)).2 }
        i src := by
  rw [refillTick_refillThreshold] at h
  unfold refillTick
  simp only [shouldRefill, decide_eq_true_eq, h, if_true]

theorem refillTick_kept (gen : Int → List Nat) (s : Controller) (i q : Nat)
    (src : List Nat)
    (h : s.rdp.tableUsage i ≤ (refillTick gen s i q src).rdp.refillThreshold) :
    (refillTick gen s i q src).rdp =
      { s.rdp with
        refillThreshold := (pressureUpdate q (s.stateCount, s.rdp.refillThreshold)).2 } := by
  rw [refillTick_refillThreshold] at h
  have h2 : ¬ s.rdp.tableUsage i > (pressureUpdate q (s.stateCount, s.rdp.refillThreshold)).2 :=
    not_lt.mpr h
  unfold refillTick
  simp only [shouldRefill, decide_eq_true_eq, h2, if_false]

theorem readFull_of_enough (src buf : List Nat) (h : buf.length ≤ src.length) :
    (readFull src buf).1 = src.take buf.length := by
  simp only [readFull]
  rw [List.drop_of_length_le h, List.append_nil]

theorem fillRandData_mprngData (gen : Int → List Nat) (c : RandDataProvider) (i : Nat)
    (src : List Nat) :
    (fillRandData gen c i src).mprngData =
      wrapInt64 (littleEndianUint64 (readFull src c.bufMprngSeed).1) := by
  simp only [fillRandData, seedMprng]

theorem fillRandData_tableData_self (gen : Int → List Nat) (c : RandDataProvider) (i : Nat)
    (src : List Nat) :
    (fillRandData gen c i src).tableData i =
      (readFull (gen (fillRandData gen c i src).mprngData) (c.tableData i)).1 := by
  simp only [fillRandData, seedMprng, Function.update_same]

/-- C9. For a controller iteration that dequeues `i`, with `t` the threshold after the pressure
update of this iteration: if `tableUsage[i] > t`, then afterwards `tableUsage[i] = 0` and
`tableData[i]` still has `RandDataSize` bytes, and its contents are regenerated: the content
stream is reseeded with the 64-bit little-endian value of the seed buffer after the read from
the entropy source, and the buffer is overwritten by what the stream yields; when the entropy
source delivers its 8 bytes and the stream at least `RandDataSize` bytes, the new buffer is
exactly the first `RandDataSize` bytes of the stream seeded with those 8 bytes, whatever the old
contents were. If `tableUsage[i] ≤ t`, buffer `i`, its counter and the seed of the content
stream are unchanged. In both cases the content and the counter of every other buffer are
unchanged. -/
theorem refillTick_buffers (gen : Int → List Nat) (s : Controller) (i q : Nat)
    (src : List Nat) (hlen : (s.rdp.tableData i).length = RandDataSize) :
    (s.rdp.tableUsage i > (refillTick gen s i q src).rdp.refillThreshold →
        (refillTick gen s i q src).rdp.tableUsage i = 0 ∧
        ((refillTick gen s i q src).rdp.tableData i).length = RandDataSize ∧
        (refillTick gen s i q src).rdp.tableData i =
          (readFull (gen (refillTick gen s i q src).rdp.mprngData) (s.rdp.tableData i)).1 ∧
        (refillTick gen s i q src).rdp.mprngData =
          wrapInt64 (littleEndianUint64 (readFull src s.rdp.bufMprngSeed).1) ∧
        (s.rdp.bufMprngSeed.length = 8 → 8 ≤ src.length →
          RandDataSize ≤ (gen (wrapInt64 (littleEndianUint64 (src.take 8)))).length →
          (refillTick gen s i q src).rdp.tableData i =
            (gen (wrapInt64 (littleEndianUint64 (src.take 8)))).take RandDataSize)) ∧
      (s.rdp.tableUsage i ≤ (refillTick gen s i q src).rdp.refillThreshold →
        (refillTick gen s i q src).rdp.tableData i = s.rdp.tableData i ∧
        (refillTick gen s i q src).rdp.tableUsage i = s.rdp.tableUsage i ∧
        (refillTick gen s i q src).rdp.mprngData = s.rdp.mprngData) ∧
      (∀ j, j ≠ i →
        (refillTick gen s i q src).rdp.tableData j = s.rdp.tableData j ∧
        (refillTick gen s i q src).rdp.tableUsage j = s.rdp.tableUsage j) := by
  refine ⟨?_, ?_, ?_⟩
  · intro h
    rw [refillTick_filled gen s i q src h]
    refine ⟨?_, ?_, ?_, ?_, ?_⟩
    · rw [fillRandData_tableUsage, Function.update_same]
    · rw [fillRandData_tableData_length]
      exact hlen
    · exact fillRandData_tableData_self gen _ i src
    · exact fillRandData_mprngData gen _ i src
    · intro hb hs hg
      rw [fillRandData_tableData_self, fillRandData_mprngData]
      have e1 : (readFull src s.rdp.bufMprngSeed).1 = src.take 8 := by
        rw [readFull_of_enough src _ (by omega), hb]
      simp only [e1]
      rw [readFull_of_enough _ _ (by simp only [hlen]; exact hg)]
      simp only [hlen]
  · intro h
    rw [refillTick_kept gen s i q src h]
    exact ⟨rfl, rfl, rfl⟩
  · intro j hj
    by_cases h : s.rdp.tableUsage i > (refillTick gen s i q src).rdp.refillThreshold
    · rw [refillTick_filled gen s i q src h]
      refine ⟨?_, ?_⟩
      · rw [fillRandData_tableData_of_ne gen _ i j src hj]
      · rw [fillRandData_tableUsage, Function.update_noteq hj]
    · rw [refillTick_kept gen s i q src (not_lt.mp h)]
      exact ⟨rfl, rfl⟩

theorem sampleGen_one :
    sampleGen (wrapInt64 (littleEndianUint64 (List.take 8 [1, 0, 0, 0, 0, 0, 0, 0]))) =
      List.replicate RandDataSize 1 := by
  have e : wrapInt64 (littleEndianUint64 (List.take 8 [1, 0, 0, 0, 0, 0, 0, 0])) = 1 := by
    simp [littleEndianUint64, wrapInt64]
  rw [e]
  simp [sampleGen]

theorem refillTick_buffers_witness :
    ((sampleController 0 3 0).rdp.tableData 1).length = RandDataSize ∧
      (refillTick sampleGen (sampleController 0 3 0) 1 0 [1, 0, 0, 0, 0, 0, 0, 0]).rdp.tableUsage 1
        = 0 ∧
      (refillTick sampleGen (sampleController 0 3 0) 1 0 [1, 0, 0, 0, 0, 0, 0, 0]).rdp.tableData 1
        = List.replicate RandDataSize 1 ∧
      (refillTick sampleGen (sampleController 0 3 0) 1 0 [1, 0, 0, 0, 0, 0, 0, 0]).rdp.tableData 1
        ≠ (sampleController 0 3 0).rdp.tableData 1 ∧
      (refillTick sampleGen (sampleController 0 3 0) 1 0 [1, 0, 0, 0, 0, 0, 0, 0]).rdp.tableData 2
        = (sampleController 0 3 0).rdp.tableData 2 := by
  have h := refillTick_buffers sampleGen (sampleController 0 3 0) 1 0 [1, 0, 0, 0, 0, 0, 0, 0]
    (by simp [sampleController, sampleProvider])
  have hgt : (sampleController 0 3 0).rdp.tableUsage 1 >
      (refillTick sampleGen (sampleController 0 3 0) 1 0
        [1, 0, 0, 0, 0, 0, 0, 0]).rdp.refillThreshold := by
    rw [refillTick_refillThreshold]
    have e : (sampleController 0 3 0).stateCount = 0 := rfl
    have e2 : (sampleController 0 3 0).rdp.refillThreshold = 0 := rfl
    have e3 : (sampleController 0 3 0).rdp.tableUsage 1 = 3 := rfl
    rw [e, e2, e3]
    have e4 : (pressureUpdate 0 (0, 0)).2 = 0 := by
      unfold pressureUpdate
      simp [TableSize]
    rw [e4]
    omega
  have hd : (refillTick sampleGen (sampleController 0 3 0) 1 0
      [1, 0, 0, 0, 0, 0, 0, 0]).rdp.tableData 1 = List.replicate RandDataSize 1 := by
    rw [(h.1 hgt).2.2.2.2 (by simp [sampleController, sampleProvider]) (by simp)
      (by rw [sampleGen_one, List.length_replicate]), sampleGen_one, List.take_replicate, min_self]
  refine ⟨by simp [sampleController, sampleProvider], (h.1 hgt).1, hd, ?_, (h.2.2 2 (by omega)).1⟩
  rw [hd]
  intro e
  have e2 := congrArg (fun l => List.count 1 l) e
  have e3 : (sampleController 0 3 0).rdp.tableData 1 = List.replicate RandDataSize 0 := rfl
  rw [e3] at e2
  simp only [List.count_replicate_self, List.count_replicate] at e2
  simp [RandDataSize] at e2

/-! ## The pressure update -/

theorem pressureUpdate_step (q : Nat) (sc t : Int) (h : sc + 1 ≤ 4096) :
    pressureUpdate q (sc, t) = (sc + 1, t) := by
  have h2 : ¬ (sc + 1 > ((TableSize : Nat) : Int)) := by
    simp only [TableSize]; push_cast; omega
  unfold pressureUpdate
  simp only [h2, if_false, ite_self]

theorem pressureUpdate_high (q : Nat) (sc t : Int) (hq : q > TableSize / 2)
    (h : sc + 1 > 4096) : pressureUpdate q (sc, t) = (0, wrapInt32 (t + 1)) := by
  have h2 : sc + 1 > ((TableSize : Nat) : Int) := by
    simp only [TableSize]; push_cast; omega
  unfold pressureUpdate
  simp only [hq, h2, if_true]

theorem pressureUpdate_low (q : Nat) (sc t : Int) (hq : ¬ q > TableSize / 2)
    (h : sc + 1 > 4096) :
    pressureUpdate q (sc, t) = (0, if t > 0 then wrapInt32 (t + (-1)) else t) := by
  have h2 : sc + 1 > ((TableSize : Nat) : Int) := by
    simp only [TableSize]; push_cast; omega
  unfold pressureUpdate
  simp only [hq, h2, if_true, if_false]

/-- C8 (amended). For a controller state with `0 ≤ stateCount ≤ TableSize` (and an int32
threshold) a tick raises `stateCount` by 1; if the raised value is at most `TableSize` the
threshold is unchanged; if it exceeds `TableSize`, `stateCount` becomes 0 and the threshold
becomes `threshold + 1` wrapped to int32 (so `-2^31` at `2^31 - 1`) when `q > TableSize/2`, and
`threshold - 1` if `threshold > 0`, unchanged otherwise, when `q ≤ TableSize/2`. For
`0 ≤ threshold < 2^31 - 1` these are `threshold + 1` and `max (threshold - 1) 0`. The bounds
`0 ≤ stateCount ≤ TableSize` are preserved. -/
theorem refillTick_pressure (gen : Int → List Nat) (s : Controller) (i q : Nat)
    (src : List Nat) (h0 : 0 ≤ s.stateCount) (hN : s.stateCount ≤ (TableSize : Nat))
    (hlo : -2147483648 ≤ s.rdp.refillThreshold) (hhi : s.rdp.refillThreshold < 2147483648) :
    (s.stateCount + 1 ≤ (TableSize : Nat) →
        (refillTick gen s i q src).stateCount = s.stateCount + 1 ∧
        (refillTick gen s i q src).rdp.refillThreshold = s.rdp.refillThreshold) ∧
      (s.stateCount + 1 > (TableSize : Nat) →
        (refillTick gen s i q src).stateCount = 0 ∧
        (q > TableSize / 2 → (refillTick gen s i q src).rdp.refillThreshold =
          if s.rdp.refillThreshold < 2147483647 then s.rdp.refillThreshold + 1
          else -2147483648) ∧
        (q ≤ TableSize / 2 → (refillTick gen s i q src).rdp.refillThreshold =
          if s.rdp.refillThreshold > 0 then s.rdp.refillThreshold - 1
          else s.rdp.refillThreshold) ∧
        (0 ≤ s.rdp.refillThreshold → s.rdp.refillThreshold < 2147483647 →
          (refillTick gen s i q src).rdp.refillThreshold =
            if q > TableSize / 2 then s.rdp.refillThreshold + 1
            else max (s.rdp.refillThreshold - 1) 0)) ∧
      0 ≤ (refillTick gen s i q src).stateCount ∧
      (refillTick gen s i q src).stateCount ≤ (TableSize : Nat) := by
  rw [refillTick_stateCount, refillTick_refillThreshold]
  have hT : ((TableSize : Nat) : Int) = 4096 := by simp [TableSize]
  rw [hT] at hN ⊢
  by_cases hs : s.stateCount + 1 ≤ 4096
  · rw [pressureUpdate_step q _ _ hs]
    refine ⟨fun _ => ⟨rfl, rfl⟩, fun h => absurd hs (by omega), by simp only []; omega,
      by simp only []; omega⟩
  · have hs2 : s.stateCount + 1 > 4096 := by omega
    by_cases hq : q > TableSize / 2
    · rw [pressureUpdate_high q _ _ hq hs2]
      refine ⟨fun h => absurd h hs, fun _ => ⟨rfl, ?_, ?_, ?_⟩, le_refl _, by simp only []; omega⟩
      · intro _
        simp only []
        unfold wrapInt32
        split <;> omega
      · intro h
        exact absurd hq (by omega)
      · intro ha hb
        simp only [hq, if_true]
        exact wrapInt32_of_range _ (by omega) (by omega)
    · rw [pressureUpdate_low q _ _ hq hs2]
      refine ⟨fun h => absurd h hs, fun _ => ⟨rfl, ?_, ?_, ?_⟩, le_refl _, by simp only []; omega⟩
      · intro h
        exact absurd h hq
      · intro _
        simp only []
        split
        · rw [wrapInt32_of_range _ (by omega) (by omega)]
          omega
        · rfl
      · intro ha hb
        simp only [hq, if_false]
        split
        · rw [wrapInt32_of_range _ (by omega) (by omega)]
          omega
        · omega

theorem refillTick_pressure_witness :
    (0 : Int) ≤ (sampleController 4096 0 5).stateCount ∧
      (sampleController 4096 0 5).stateCount ≤ (TableSize : Nat) ∧
      (refillTick (fun _ => []) (sampleController 4096 0 5) 0 4000 []).stateCount = 0 ∧
      (refillTick (fun _ => []) (sampleController 4096 0 5) 0 4000 []).rdp.refillThreshold
        = 6 := by
  have h := refillTick_pressure (fun _ => []) (sampleController 4096 0 5) 0 4000 []
    (by simp [sampleController]) (by simp [sampleController, TableSize])
    (by simp [sampleController, sampleProvider]) (by simp [sampleController, sampleProvider])
  refine ⟨by simp [sampleController], by simp [sampleController, TableSize], ?_, ?_⟩
  · exact (h.2.1 (by simp [sampleController, TableSize])).1
  · have h2 := (h.2.1 (by simp [sampleController, TableSize])).2.1 (by simp [TableSize])
    rw [h2]
    simp [sampleController, sampleProvider]

/-- C8 (counterexample). In the state `stateCount = TableSize`, `refillThreshold = 2^31 - 1`, a
tick that observes a long queue does not set the threshold to `threshold + 1`: the int32
addition wraps and the threshold becomes `-2^31`. -/
theorem refillTick_wraps :
    (refillTick (fun _ => []) (sampleController 4096 0 2147483647) 0 4095 []).rdp.refillThreshold
        = -2147483648 ∧
      (refillTick (fun _ => []) (sampleController 4096 0 2147483647) 0 4095 []).rdp.refillThreshold
        ≠ (sampleController 4096 0 2147483647).rdp.refillThreshold + 1 := by
  have h : (refillTick (fun _ => []) (sampleController 4096 0 2147483647) 0 4095
      []).rdp.refillThreshold = -2147483648 := by
    rw [refillTick_refillThreshold]
    have e : (sampleController 4096 0 2147483647).stateCount = 4096 := rfl
    have e2 : (sampleController 4096 0 2147483647).rdp.refillThreshold = 2147483647 := rfl
    rw [e, e2, pressureUpdate_high 4095 _ _ (by simp [TableSize]) (by omega)]
    simp [wrapInt32]
  refine ⟨h, ?_⟩
  rw [h]
  have e2 : (sampleController 4096 0 2147483647).rdp.refillThreshold = 2147483647 := rfl
  rw [e2]
  omega

/-! ## Runs of the controller -/

theorem newRandDataProvider_refillThreshold (gen : Int → List Nat) (seeds : Nat → List Nat) :
    (newRandDataProvider gen seeds).refillThreshold = 0 := by
  have h := foldl_initEntry gen seeds
    (seedMprng (seedMprng zeroProvider Mprng.index (seeds 0)) Mprng.data (seeds 1)) TableSize
  simp only [newRandDataProvider]
  rw [h.1, seedMprng_refillThreshold, seedMprng_refillThreshold]
  simp only [zeroProvider]

theorem initEntry_chanRefill (gen : Int → List Nat) (seeds : Nat → List Nat)
    (c : RandDataProvider) (i : Nat) :
    (initEntry gen seeds c i).chanRefill = c.chanRefill := by
  simp [initEntry]

theorem foldl_initEntry_chanRefill (gen : Int → List Nat) (seeds : Nat → List Nat)
    (c : RandDataProvider) (n : Nat) :
    ((List.range n).foldl (initEntry gen seeds) c).chanRefill = c.chanRefill := by
  induction n with
  | zero => simp
  | succ n ih =>
    rw [List.range_succ, List.foldl_append]
    simp only [List.foldl_cons, List.foldl_nil]
    rw [initEntry_chanRefill]
    exact ih

theorem newRandDataProvider_chanRefill (gen : Int → List Nat) (seeds : Nat → List Nat) :
    (newRandDataProvider gen seeds).chanRefill = [] := by
  simp only [newRandDataProvider]
  rw [foldl_initEntry_chanRefill, seedMprng_chanRefill, seedMprng_chanRefill]
  simp only [zeroProvider]

theorem wrapInt32_le (x : Int) : wrapInt32 x ≤ 2147483647 := by
  unfold wrapInt32
  omega

theorem refillTick_chanRefill (gen : Int → List Nat) (s : Controller) (i q : Nat)
    (src : List Nat) : (refillTick gen s i q src).rdp.chanRefill = s.rdp.chanRefill := by
  unfold refillTick
  simp only []
  split
  · rw [fillRandData_chanRefill]
  · rfl

theorem step_tick_nil (gen : Int → List Nat) (s : Controller) (src : List Nat)
    (h : s.rdp.chanRefill = []) : step gen s (Event.tick src) = s := by
  simp only [step, refillLoopStep, h]

theorem step_tick_cons (gen : Int → List Nat) (s : Controller) (src : List Nat) (i : Nat)
    (rest : List Nat) (h : s.rdp.chanRefill = i :: rest) :
    step gen s (Event.tick src) =
      refillTick gen { s with rdp := { s.rdp with chanRefill := rest } } i rest.length src := by
  simp only [step, refillLoopStep, h]

theorem step_use_refillThreshold (gen : Int → List Nat) (s : Controller) (idx : Nat) :
    (step gen s (Event.use idx)).rdp.refillThreshold = s.rdp.refillThreshold := by
  show (UseRandData s.rdp idx).1.refillThreshold = _
  rw [useRandData_refillThreshold]

theorem run_cons (gen : Int → List Nat) (s : Controller) (e : Event) (es : List Event) :
    run gen s (e :: es) = run gen (step gen s e) es := rfl

theorem thresholdInv_init (gen : Int → List Nat) (seeds : Nat → List Nat) :
    thresholdInv (initController gen seeds) := by
  unfold thresholdInv initController
  simp only [newRandDataProvider_refillThreshold, newRandDataProvider_chanRefill]
  simp

theorem thresholdInv_tick (gen : Int → List Nat) (s : Controller) (src : List Nat)
    (h : thresholdInv s) :
    thresholdInv (step gen s (Event.tick src)) ∧
      s.rdp.refillThreshold - 1 ≤ (step gen s (Event.tick src)).rdp.refillThreshold ∧
      (step gen s (Event.tick src)).rdp.refillThreshold ≤ s.rdp.refillThreshold + 1 := by
  cases hc : s.rdp.chanRefill with
  | nil =>
    rw [step_tick_nil gen s src hc]
    exact ⟨h, by omega, by omega⟩
  | cons i rest =>
    rw [step_tick_cons gen s src i rest hc]
    obtain ⟨h1, h2, h3, h4, h5, h6⟩ := h
    rw [hc] at h5 h6
    simp only [List.length_cons] at h5 h6
    push_cast at h6
    unfold thresholdInv
    rw [refillTick_stateCount, refillTick_refillThreshold, refillTick_chanRefill]
    simp only []
    by_cases hs : s.stateCount + 1 ≤ 4096
    · rw [pressureUpdate_step _ _ _ hs]
      simp only []
      refine ⟨⟨h1, h2, by omega, hs, by omega, fun e => ?_⟩, by omega, by omega⟩
      have h7 := h6 e
      omega
    · have hs2 : s.stateCount + 1 > 4096 := by omega
      have hne : s.rdp.refillThreshold ≠ 2147483647 := by
        intro e
        have h7 := h6 e
        omega
      by_cases hq : rest.length > TableSize / 2
      · rw [pressureUpdate_high _ _ _ hq hs2, wrapInt32_of_range _ (by omega) (by omega)]
        simp only []
        exact ⟨⟨by omega, by omega, le_refl _, by omega, by omega, fun _ => by omega⟩,
          by omega, by omega⟩
      · rw [pressureUpdate_low _ _ _ hq hs2]
        by_cases hp : s.rdp.refillThreshold > 0
        · rw [if_pos hp, wrapInt32_of_range _ (by omega) (by omega)]
          simp only []
          exact ⟨⟨by omega, by omega, le_refl _, by omega, by omega, fun _ => by omega⟩,
            by omega, by omega⟩
        · rw [if_neg hp]
          simp only []
          exact ⟨⟨by omega, by omega, le_refl _, by omega, by omega, fun _ => by omega⟩,
            by omega, by omega⟩

theorem thresholdInv_use (gen : Int → List Nat) (s : Controller) (idx : Nat)
    (h : thresholdInv s) : thresholdInv (step gen s (Event.use idx)) := by
  obtain ⟨h1, h2, h3, h4, h5, h6⟩ := h
  have hw := wrapInt32_le (s.rdp.tableUsage idx + 1)
  unfold thresholdInv
  rw [step_use_refillThreshold]
  show _ ∧ _ ∧ 0 ≤ s.stateCount ∧ s.stateCount ≤ 4096 ∧
    (UseRandData s.rdp idx).1.chanRefill.length ≤ 4096 ∧
    (_ → s.stateCount + ((UseRandData s.rdp idx).1.chanRefill.length : Int) ≤ 4096)
  rw [useRandData_chanRefill]
  by_cases hcnd : wrapInt32 (s.rdp.tableUsage idx + 1) > s.rdp.refillThreshold ∧
      s.rdp.chanRefill.length < TableSize
  · rw [if_pos hcnd]
    have hroom : s.rdp.chanRefill.length < 4096 := hcnd.2
    have hlt := hcnd.1
    simp only [List.length_append, List.length_singleton]
    exact ⟨h1, h2, h3, h4, by omega, fun e => absurd hlt (by omega)⟩
  · rw [if_neg hcnd]
    exact ⟨h1, h2, h3, h4, h5, h6⟩

theorem thresholdInv_run (gen : Int → List Nat) (es : List Event) :
    ∀ s : Controller, thresholdInv s → thresholdInv (run gen s es) := by
  induction es with
  | nil => intro s h; exact h
  | cons e es ih =>
    intro s h
    rw [run_cons]
    cases e with
    | tick src => exact ih _ (thresholdInv_tick gen s src h).1
    | use idx => exact ih _ (thresholdInv_use gen s idx h)

/-- C1. The controller is a step function on `(stateCount, refillThreshold, usage table)` and
the channel: an iteration takes the index at the head of the channel and observes the length of
the rest. The initial state has `refillThreshold = 0` and `stateCount = 0`. For every state
reached from it by any sequence of controller iterations and `UseRandData` calls,
`refillThreshold ≥ 0` (and it is at most `2^31 - 1`: the int32 never wraps); every controller
iteration from such a state changes `refillThreshold` by at most 1; `UseRandData` never changes
it, in any state. -/
theorem refillThreshold_nonneg (gen : Int → List Nat) (seeds : Nat → List Nat)
    (es : List Event) (src : List Nat) :
    (initController gen seeds).rdp.refillThreshold = 0 ∧
      (initController gen seeds).stateCount = 0 ∧
      0 ≤ (run gen (initController gen seeds) es).rdp.refillThreshold ∧
      (run gen (initController gen seeds) es).rdp.refillThreshold ≤ 2147483647 ∧
      (run gen (initController gen seeds) es).rdp.refillThreshold - 1 ≤
        (step gen (run gen (initController gen seeds) es) (Event.tick src)).rdp.refillThreshold ∧
      (step gen (run gen (initController gen seeds) es) (Event.tick src)).rdp.refillThreshold ≤
        (run gen (initController gen seeds) es).rdp.refillThreshold + 1 ∧
      (∀ (s : Controller) (idx : Nat),
        (step gen s (Event.use idx)).rdp.refillThreshold = s.rdp.refillThreshold) := by
  have hinv := thresholdInv_run gen es _ (thresholdInv_init gen seeds)
  have ht := thresholdInv_tick gen _ src hinv
  refine ⟨?_, rfl, hinv.1, hinv.2.1, ht.2.1, ht.2.2, step_use_refillThreshold gen⟩
  unfold initController
  simp only [newRandDataProvider_refillThreshold]

theorem step_use_zero (gen : Int → List Nat) (s : Controller)
    (h0 : s.rdp.refillThreshold = 0) (hu : 0 ≤ s.rdp.tableUsage 0)
    (hu2 : s.rdp.tableUsage 0 < 2147483647) (hl : s.rdp.chanRefill.length < 4096) :
    (step gen s (Event.use 0)).rdp.chanRefill = s.rdp.chanRefill ++ [0] ∧
      (step gen s (Event.use 0)).rdp.refillThreshold = 0 ∧
      (step gen s (Event.use 0)).stateCount = s.stateCount ∧
      (step gen s (Event.use 0)).rdp.tableUsage 0 = s.rdp.tableUsage 0 + 1 := by
  have hw : wrapInt32 (s.rdp.tableUsage 0 + 1) = s.rdp.tableUsage 0 + 1 :=
    wrapInt32_of_range _ (by omega) (by omega)
  refine ⟨?_, ?_, rfl, ?_⟩
  · show (UseRandData s.rdp 0).1.chanRefill = _
    rw [useRandData_chanRefill, hw, h0, if_pos ⟨by omega, by simp only [TableSize]; omega⟩]
  · rw [step_use_refillThreshold, h0]
  · show (UseRandData s.rdp 0).1.tableUsage 0 = _
    rw [useRandData_tableUsage, Function.update_same, hw]

theorem run_uses (gen : Int → List Nat) (m : Nat) :
    ∀ s : Controller, s.rdp.refillThreshold = 0 → 0 ≤ s.rdp.tableUsage 0 →
      s.rdp.tableUsage 0 + m < 2147483647 → s.rdp.chanRefill.length + m ≤ 4096 →
      (run gen s (List.replicate m (Event.use 0))).rdp.chanRefill =
          s.rdp.chanRefill ++ List.replicate m 0 ∧
        (run gen s (List.replicate m (Event.use 0))).rdp.refillThreshold = 0 ∧
        (run gen s (List.replicate m (Event.use 0))).stateCount = s.stateCount := by
  induction m with
  | zero =>
    intro s h0 _ _ _
    exact ⟨by simp [run], h0, rfl⟩
  | succ m ih =>
    intro s h0 hu hu2 hl
    push_cast at hu2
    have hs := step_use_zero gen s h0 hu (by omega) (by omega)
    rw [List.replicate_succ, run_cons]
    have h := ih (step gen s (Event.use 0)) hs.2.1 (by rw [hs.2.2.2]; omega)
      (by rw [hs.2.2.2]; omega)
      (by rw [hs.1, List.length_append, List.length_singleton]; omega)
    rw [h.1, h.2.1, h.2.2, hs.1, hs.2.2.1]
    exact ⟨by simp [List.replicate_succ], rfl, rfl⟩

theorem step_use_tick (gen : Int → List Nat) (s : Controller) (src : List Nat)
    (hc : s.rdp.chanRefill = []) (h0 : s.rdp.refillThreshold = 0)
    (hu : s.rdp.tableUsage 0 = 0) (hs : s.stateCount + 1 ≤ 4096) :
    (step gen (step gen s (Event.use 0)) (Event.tick src)).rdp.chanRefill = [] ∧
      (step gen (step gen s (Event.use 0)) (Event.tick src)).rdp.refillThreshold = 0 ∧
      (step gen (step gen s (Event.use 0)) (Event.tick src)).rdp.tableUsage 0 = 0 ∧
      (step gen (step gen s (Event.use 0)) (Event.tick src)).stateCount = s.stateCount + 1 := by
  have h1 := step_use_zero gen s h0 (by omega) (by omega) (by rw [hc]; simp)
  rw [hc, List.nil_append] at h1
  rw [step_tick_cons gen _ src 0 [] h1.1]
  have ht : (refillTick gen { step gen s (Event.use 0) with
      rdp := { (step gen s (Event.use 0)).rdp with chanRefill := [] } } 0
      ([] : List Nat).length src).rdp.refillThreshold = 0 := by
    rw [refillTick_refillThreshold]
    simp only []
    rw [h1.2.1, h1.2.2.1, pressureUpdate_step _ _ _ hs]
  refine ⟨?_, ht, ?_, ?_⟩
  · rw [refillTick_chanRefill]
  · rw [refillTick_filled gen _ 0 _ src (by rw [ht]; simp only []; rw [h1.2.2.2]; omega),
      fillRandData_tableUsage, Function.update_same]
  · rw [refillTick_stateCount]
    simp only []
    rw [h1.2.1, h1.2.2.1, pressureUpdate_step _ _ _ hs]

theorem run_useTickRounds (gen : Int → List Nat) (n : Nat) :
    ∀ s : Controller, s.rdp.chanRefill = [] → s.rdp.refillThreshold = 0 →
      s.rdp.tableUsage 0 = 0 → s.stateCount + n ≤ 4096 →
      (run gen s (useTickRounds n)).rdp.chanRefill = [] ∧
        (run gen s (useTickRounds n)).rdp.refillThreshold = 0 ∧
        (run gen s (useTickRounds n)).rdp.tableUsage 0 = 0 ∧
        (run gen s (useTickRounds n)).stateCount = s.stateCount + n := by
  induction n with
  | zero =>
    intro s hc h0 hu _
    exact ⟨hc, h0, hu, by simp [run, useTickRounds]⟩
  | succ n ih =>
    intro s hc h0 hu hs
    push_cast at hs
    have h1 := step_use_tick gen s [] hc h0 hu (by omega)
    have e : useTickRounds (n + 1) = Event.use 0 :: Event.tick [] :: useTickRounds n := rfl
    rw [e, run_cons, run_cons]
    have h := ih _ h1.1 h1.2.1 h1.2.2.1 (by rw [h1.2.2.2]; omega)
    rw [h.1, h.2.1, h.2.2.1, h.2.2.2, h1.2.2.2]
    exact ⟨rfl, rfl, rfl, by push_cast; omega⟩

theorem run_append (gen : Int → List Nat) (s : Controller) (es fs : List Event) :
    run gen s (es ++ fs) = run gen (run gen s es) fs := by
  unfold run
  rw [List.foldl_append]

theorem run_singleton (gen : Int → List Nat) (s : Controller) (e : Event) :
    run gen s [e] = step gen s e := rfl

theorem newRandDataProvider_tableUsage_zero (gen : Int → List Nat) (seeds : Nat → List Nat) :
    (newRandDataProvider gen seeds).tableUsage 0 = 0 := by
  have h := foldl_initEntry gen seeds
    (seedMprng (seedMprng zeroProvider Mprng.index (seeds 0)) Mprng.data (seeds 1)) TableSize
  simp only [newRandDataProvider]
  exact (h.2 0 (by simp [TableSize])).2

theorem step_tick_raises (gen : Int → List Nat) (s : Controller) (src : List Nat) (i : Nat)
    (rest : List Nat) (hc : s.rdp.chanRefill = i :: rest) (hq : rest.length > TableSize / 2)
    (h0 : s.rdp.refillThreshold = 0) (hs : s.stateCount = 4096) :
    (step gen s (Event.tick src)).rdp.refillThreshold = 1 := by
  rw [step_tick_cons gen s src i rest hc, refillTick_refillThreshold]
  simp only []
  rw [h0, hs, pressureUpdate_high _ _ _ hq (by norm_num)]
  simp [wrapInt32]

theorem run_rounds_uses (gen : Int → List Nat) (seeds : Nat → List Nat) :
    (run gen (run gen (initController gen seeds) (useTickRounds 4096))
        (List.replicate 2050 (Event.use 0))).rdp.chanRefill = 0 :: List.replicate 2049 0 ∧
      (run gen (run gen (initController gen seeds) (useTickRounds 4096))
        (List.replicate 2050 (Event.use 0))).rdp.refillThreshold = 0 ∧
      (run gen (run gen (initController gen seeds) (useTickRounds 4096))
        (List.replicate 2050 (Event.use 0))).stateCount = 4096 := by
  have hi : (initController gen seeds).rdp.chanRefill = [] ∧
      (initController gen seeds).rdp.refillThreshold = 0 ∧
      (initController gen seeds).rdp.tableUsage 0 = 0 ∧
      (initController gen seeds).stateCount = 0 := by
    unfold initController
    simp only [newRandDataProvider_chanRefill, newRandDataProvider_refillThreshold,
      newRandDataProvider_tableUsage_zero, and_self]
  have h1 := run_useTickRounds gen 4096 (initController gen seeds) hi.1 hi.2.1 hi.2.2.1
    (by rw [hi.2.2.2]; norm_num)
  rw [hi.2.2.2] at h1
  have h2 := run_uses gen 2050 (run gen (initController gen seeds) (useTickRounds 4096))
    h1.2.1 (by rw [h1.2.2.1]) (by rw [h1.2.2.1]; norm_num) (by rw [h1.1]; simp)
  have e : List.replicate 2050 (0 : Nat) = 0 :: List.replicate 2049 0 := by
    rw [show (2050 : Nat) = 2049 + 1 from rfl, List.replicate_succ]
  rw [h1.1, h1.2.2.2, List.nil_append, e] at h2
  exact ⟨h2.1, h2.2.1, by rw [h2.2.2]; norm_num⟩

/-- The bounds of C1 are not idle: from the initial state, `TableSize` rounds of a call followed
by a controller iteration, then 2050 calls and one more iteration (which leaves 2049 indices
queued, more than `TableSize / 2`) raise `refillThreshold` to 1. -/
theorem run_raises_threshold (gen : Int → List Nat) (seeds : Nat → List Nat) :
    (run gen (initController gen seeds)
      (useTickRounds 4096 ++ (List.replicate 2050 (Event.use 0) ++
        [Event.tick []]))).rdp.refillThreshold = 1 := by
  have h := run_rounds_uses gen seeds
  rw [run_append, run_append, run_singleton]
  exact step_tick_raises gen _ [] 0 _ h.1 (by rw [List.length_replicate]; simp [TableSize])
    h.2.1 h.2.2

/-! ## The write loop -/

theorem fileWrite_full (d : List Nat) (accept : Nat) (h : d.length ≤ accept) :
    fileWrite d accept = (d, d.length, false) := by
  unfold fileWrite
  rw [List.take_of_length_le h, min_eq_right h]
  simp only [Prod.mk.injEq, decide_eq_false_iff_not, not_lt, true_and]
  exact h

theorem fileWrite_short (d : List Nat) (accept : Nat) (h : accept < d.length) :
    (fileWrite d accept).2.2 = true := by
  unfold fileWrite
  simp only [decide_eq_true_eq]
  exact h

theorem loopBody_short (fl : EstimateArgs → Estimate) (S D : Nat) (st : LoopState) (it : Iter)
    (h : it.accept < it.d.length) :
    loopBody fl S D st it =
      BodyResult.stop { st with file := st.file ++ (fileWrite it.d it.accept).1 } true := by
  unfold loopBody
  simp only [fileWrite_short it.d it.accept h, if_true]

theorem zeroBuf_length : zeroBuf.length = 4096 := by
  rw [zeroBuf, List.length_replicate]
  rfl

theorem fileWrite_zeroBuf : fileWrite zeroBuf 4096 = (zeroBuf, 4096, false) := by
  rw [fileWrite_full zeroBuf 4096 (by rw [zeroBuf_length]), zeroBuf_length]

/-- C4 (counterexample). With `count = 3` and `size = 1000`, each step writes one full buffer
and stops on the target check: the file has 4096 bytes, not 1000, in each of the three steps. -/
theorem main_size_1000 :
    (stepLogs (main exactEstimate 3 1000 0
      [plainStep 0 [fullWrite 5], plainStep 10 [fullWrite 15], plainStep 20 [fullWrite 25]])).map
        (fun e => (e.writtenTotal, e.fileSize)) = [(4096, 4096), (4096, 4096), (4096, 4096)] := by
  have hR : RandDataSize = 4096 := rfl
  simp [main, fillSteps, writeLoop, loopBody, targetCheck, plainStep, fullWrite,
    stepLogs, addUint64, hR, fileWrite_zeroBuf, zeroBuf_length, StatRecordSize]

theorem targetCheck_cases (S : Nat) (st : LoopState) (loop : Bool) :
    (targetCheck S st loop = BodyResult.stop st false ∧
        ((0 < S ∧ S ≤ st.writtenTotal) ∨ loop = false)) ∨
      (targetCheck S st loop = BodyResult.next st ∧ ¬ (0 < S ∧ S ≤ st.writtenTotal) ∧
        loop = true) := by
  by_cases h : 0 < S ∧ S ≤ st.writtenTotal
  · left
    have e : targetCheck S st loop = BodyResult.stop st false := by
      have h2 : S > 0 ∧ st.writtenTotal ≥ S := h
      unfold targetCheck
      simp [h2]
    exact ⟨e, Or.inl h⟩
  · have h2 : ¬ (S > 0 ∧ st.writtenTotal ≥ S) := h
    cases loop with
    | true =>
      right
      have e : targetCheck S st true = BodyResult.next st := by
        unfold targetCheck
        simp [h2]
      exact ⟨e, h, rfl⟩
    | false =>
      left
      have e : targetCheck S st false = BodyResult.stop st false := by
        unfold targetCheck
        simp [h2]
      exact ⟨e, Or.inr rfl⟩

theorem targetCheck_reached (S : Nat) (st : LoopState) (loop : Bool) (h0 : 0 < S)
    (h : S ≤ st.writtenTotal) : targetCheck S st loop = BodyResult.stop st false := by
  rcases targetCheck_cases S st loop with h1 | h1
  · exact h1.1
  · exact absurd ⟨h0, h⟩ h1.2.1

theorem targetCheck_continue (S : Nat) (st : LoopState) (h : ¬ S ≤ st.writtenTotal) :
    targetCheck S st true = BodyResult.next st := by
  rcases targetCheck_cases S st true with h1 | h1
  · rcases h1.2 with h2 | h2
    · exact absurd h2.2 h
    · exact absurd h2 (by simp)
  · exact h1.1

/-- What an iteration with a successful write does: it panics (which needs a division by zero
in the report), or it hands to the target check a state with the bytes counted and appended,
with a sample window that is not empty; the loop flag it hands over is `true` unless the
nearly-full test fired. -/
theorem loopBody_full (fl : EstimateArgs → Estimate) (S D : Nat) (st : LoopState) (it : Iter)
    (hfull : it.d.length ≤ it.accept) (hne : st.statRecords ≠ []) :
    (loopBody fl S D st it = BodyResult.panic ∧ ∃ a, (fl a).divByZero = true) ∨
      ∃ recs reps loop, recs ≠ [] ∧
        loopBody fl S D st it = targetCheck S
          { statRecords := recs, writtenTotal := addUint64 st.writtenTotal it.d.length,
            file := st.file ++ it.d, reports := reps } loop ∧
        ((∀ a, (fl a).nearly = false) → loop = true) := by
  unfold loopBody
  rw [fileWrite_full it.d it.accept hfull]
  simp only [Bool.false_eq_true, if_false]
  split
  · rename_i hl
    exact absurd (List.getLast?_eq_none_iff.mp hl) hne
  · split
    · split
      · rename_i hlen
        split
        · rename_i hh
          rw [List.head?_eq_none_iff] at hh
          exact absurd hh (by simp)
        · split
          · rename_i hz
            left
            exact ⟨rfl, _, hz⟩
          · right
            refine ⟨_, _, _, ?_, rfl, ?_⟩
            · intro ht
              have hl2 := congrArg List.length ht
              simp only [List.length_tail, List.length_append, List.length_singleton,
                List.length_nil] at hl2
              simp only [List.length_append, List.length_singleton, StatRecordSize] at hlen
              omega
            · intro hq
              rw [hq]
              rfl
      · right
        exact ⟨_, _, true, by simp, rfl, fun _ => rfl⟩
    · right
      exact ⟨_, _, true, hne, rfl, fun _ => rfl⟩

theorem writeLoop_cons (fl : EstimateArgs → Estimate) (S D : Nat) (st : LoopState) (it : Iter)
    (rest : List Iter) :
    writeLoop fl S D st (it :: rest) =
      match loopBody fl S D st it with
      | BodyResult.next st2 => writeLoop fl S D st2 rest
      | BodyResult.stop st2 err => Outcome.done (st2, err)
      | BodyResult.panic => Outcome.panic := rfl

theorem writeLoop_nil (fl : EstimateArgs → Estimate) (S D : Nat) (st : LoopState) :
    writeLoop fl S D st [] = Outcome.running := rfl

theorem writeLoop_inv_of_full (fl : EstimateArgs → Estimate) (S D : Nat) (hS : 0 < S)
    (env : List Iter) :
    ∀ st : LoopState, (∀ it ∈ env, it.d.length = 4096 ∧ it.d.length ≤ it.accept) →
      st.statRecords ≠ [] → st.writtenTotal % 4096 = 0 → st.writtenTotal < S →
      (st.file.length = st.writtenTotal ∨ 18446744073709551616 < S + 4096) →
      ∀ r err, writeLoop fl S D st env = Outcome.done (r, err) →
        err = false ∧ (S ≤ r.writtenTotal →
          r.file.length = 4096 * ((S + 4095) / 4096) ∧
          r.writtenTotal = 4096 * ((S + 4095) / 4096)) := by
  induction env with
  | nil =>
    intro st _ _ _ _ _ r err h
    rw [writeLoop_nil] at h
    cases h
  | cons it rest ih =>
    intro st hfull hne hmod hlt hfile r err h
    have hit := hfull it (List.mem_cons_self _ _)
    have hrest : ∀ x ∈ rest, x.d.length = 4096 ∧ x.d.length ≤ x.accept :=
      fun x hx => hfull x (List.mem_cons_of_mem _ hx)
    rw [writeLoop_cons] at h
    rcases loopBody_full fl S D st it hit.2 hne with ⟨hb, _⟩ | ⟨recs, reps, loop, hrecs, hb, _⟩
    · rw [hb] at h
      cases h
    · rw [hb] at h
      have hw : addUint64 st.writtenTotal 4096 =
          (st.writtenTotal + 4096) % 18446744073709551616 := rfl
      rcases targetCheck_cases S
          { statRecords := recs, writtenTotal := addUint64 st.writtenTotal it.d.length,
            file := st.file ++ it.d, reports := reps } loop with ⟨e, hc⟩ | ⟨e, hn, _⟩
      · rw [e] at h
        simp only [Outcome.done.injEq, Prod.mk.injEq] at h
        obtain ⟨hr, he⟩ := h
        subst hr
        refine ⟨he.symm, ?_⟩
        simp only [List.length_append, hit.1, hw]
        intro hge
        omega
      · rw [e] at h
        simp only [hit.1, hw] at h hn
        refine ih _ hrest hrecs ?_ ?_ ?_ r err h
        · simp only []; omega
        · simp only []; omega
        · simp only [List.length_append, hit.1]; omega

theorem writeLoop_reaches (fl : EstimateArgs → Estimate) (S D : Nat) (hS : 0 < S)
    (hq : ∀ a, fl a = { divByZero := false, nearly := false })
    (hR : 4096 * ((S + 4095) / 4096) < 18446744073709551616) (env : List Iter) :
    ∀ st : LoopState, (∀ it ∈ env, it.d.length = 4096 ∧ it.d.length ≤ it.accept) →
      st.statRecords ≠ [] → st.writtenTotal % 4096 = 0 → st.writtenTotal < S →
      (4096 * ((S + 4095) / 4096) - st.writtenTotal) / 4096 ≤ env.length →
      ∃ r, writeLoop fl S D st env = Outcome.done (r, false) ∧ S ≤ r.writtenTotal := by
  induction env with
  | nil =>
    intro st _ _ hmod hlt hlen
    simp only [List.length_nil] at hlen
    omega
  | cons it rest ih =>
    intro st hfull hne hmod hlt hlen
    have hit := hfull it (List.mem_cons_self _ _)
    have hrest : ∀ x ∈ rest, x.d.length = 4096 ∧ x.d.length ≤ x.accept :=
      fun x hx => hfull x (List.mem_cons_of_mem _ hx)
    simp only [List.length_cons] at hlen
    rw [writeLoop_cons]
    rcases loopBody_full fl S D st it hit.2 hne with ⟨_, a, ha⟩ | ⟨recs, reps, loop, hrecs, hb, hl⟩
    · rw [hq a] at ha
      cases ha
    · have hloop : loop = true := hl (fun a => by rw [hq a])
      have hw : addUint64 st.writtenTotal it.d.length = st.writtenTotal + 4096 := by
        rw [hit.1]
        unfold addUint64
        omega
      rw [hb, hloop, hw]
      by_cases hge : S ≤ st.writtenTotal + 4096
      · rw [targetCheck_reached S _ true hS hge]
        exact ⟨_, rfl, hge⟩
      · rw [targetCheck_continue S _ hge]
        refine ih _ hrest hrecs ?_ ?_ ?_
        · simp only []; omega
        · simp only []; omega
        · simp only []; omega

theorem roundUp_eq (S : Nat) : roundUp S = 4096 * ((S + 4095) / 4096) := rfl

/-- C4 (amended). For a target size `S > 0` and a fill step in which every write succeeds in
full, when the write loop stops with the target reached the file holds exactly `roundUp S`
bytes, the smallest multiple of the buffer length 4096 that is at least `S` (so exactly `S`
only when `S` is a multiple of 4096), and so does `writtenTotal`. When `roundUp S < 2^64` and
the report neither panics nor fires the nearly-full test, `roundUp S / 4096` writes are enough
for the loop to stop in this way. -/
theorem writeLoop_target (fl : EstimateArgs → Estimate) (S D : Nat) (st0 : LoopState)
    (env : List Iter) (hS : 0 < S) (h0 : st0.writtenTotal = 0) (hf : st0.file = [])
    (hne : st0.statRecords ≠ [])
    (hfull : ∀ it ∈ env, it.d.length = RandDataSize ∧ it.d.length ≤ it.accept) :
    (∀ r err, writeLoop fl S D st0 env = Outcome.done (r, err) →
        err = false ∧
        (S ≤ r.writtenTotal → r.file.length = roundUp S ∧ r.writtenTotal = roundUp S)) ∧
      ((∀ a, fl a = { divByZero := false, nearly := false }) →
        roundUp S < 18446744073709551616 → roundUp S / RandDataSize ≤ env.length →
        ∃ r, writeLoop fl S D st0 env = Outcome.done (r, false) ∧ S ≤ r.writtenTotal ∧
          r.file.length = roundUp S) := by
  have hRD : RandDataSize = 4096 := rfl
  rw [hRD] at hfull ⊢
  rw [roundUp_eq]
  have hinv := writeLoop_inv_of_full fl S D hS env st0 hfull hne (by rw [h0]) (by rw [h0]; exact hS)
    (Or.inl (by rw [hf, h0]; rfl))
  refine ⟨hinv, ?_⟩
  intro hq hR hlen
  obtain ⟨r, hr, hge⟩ := writeLoop_reaches fl S D hS hq hR env st0 hfull hne (by rw [h0])
    (by rw [h0]; exact hS) (by rw [h0]; omega)
  exact ⟨r, hr, hge, ((hinv r false hr).2 hge).1⟩

theorem writeLoop_target_witness :
    0 < 1000 ∧
      ∃ r, writeLoop (fun _ => { divByZero := false, nearly := false }) 1000 0
          { statRecords := [{ recordTime := 0, writtenBytes := 0 }], writtenTotal := 0,
            file := [], reports := [] } [fullWrite 5] = Outcome.done (r, false) ∧
        1000 ≤ r.writtenTotal ∧ r.file.length = roundUp 1000 :=
  ⟨by norm_num,
    (writeLoop_target (fun _ => { divByZero := false, nearly := false }) 1000 0
      { statRecords := [{ recordTime := 0, writtenBytes := 0 }], writtenTotal := 0,
        file := [], reports := [] } [fullWrite 5] (by norm_num) rfl rfl (by simp)
      (by
        intro it hit
        rw [List.mem_singleton] at hit
        subst hit
        exact ⟨by rw [show (fullWrite 5).d = zeroBuf from rfl, zeroBuf_length]; rfl,
          by rw [show (fullWrite 5).d = zeroBuf from rfl, zeroBuf_length]; exact le_refl _⟩)).2
      (fun _ => rfl) (by rw [roundUp_eq]; norm_num) (by rw [roundUp_eq]; simp [RandDataSize])⟩

/-! ## The fill steps -/

theorem writeLoop_completes (fl : EstimateArgs → Estimate) (S D : Nat)
    (hz : ∀ a, (fl a).divByZero = false) (env : List Iter) :
    ∀ st : LoopState, st.statRecords ≠ [] → (∃ it ∈ env, it.accept < it.d.length) →
      ∃ r, writeLoop fl S D st env = Outcome.done r := by
  induction env with
  | nil =>
    intro st _ h
    obtain ⟨it, hit, _⟩ := h
    cases hit
  | cons it rest ih =>
    intro st hne h
    rw [writeLoop_cons]
    by_cases hs : it.accept < it.d.length
    · rw [loopBody_short fl S D st it hs]
      exact ⟨_, rfl⟩
    · have hfull : it.d.length ≤ it.accept := not_lt.mp hs
      have hrest : ∃ x ∈ rest, x.accept < x.d.length := by
        obtain ⟨x, hx, hxs⟩ := h
        rcases List.mem_cons.mp hx with hx1 | hx1
        · subst hx1
          exact absurd hxs hs
        · exact ⟨x, hx1, hxs⟩
      rcases loopBody_full fl S D st it hfull hne with ⟨_, a, ha⟩ | ⟨recs, reps, loop, hrecs, hb, _⟩
      · rw [hz a] at ha
        cases ha
      · rw [hb]
        rcases targetCheck_cases S
            { statRecords := recs, writtenTotal := addUint64 st.writtenTotal it.d.length,
              file := st.file ++ it.d, reports := reps } loop with ⟨e, _⟩ | ⟨e, _, _⟩
        · rw [e]
          exact ⟨_, rfl⟩
        · rw [e]
          exact ih _ hrecs hrest

theorem fillSteps_zero (fl : EstimateArgs → Estimate) (S D : Nat) (ds : DriverState)
    (envs : List StepEnv) : fillSteps fl S D 0 ds envs = Outcome.done ds := by
  unfold fillSteps
  rfl

theorem fillSteps_nil (fl : EstimateArgs → Estimate) (S D : Nat) (left : Nat)
    (ds : DriverState) : fillSteps fl S D (left + 1) ds [] = Outcome.running := by
  unfold fillSteps
  rfl

theorem fillSteps_step (fl : EstimateArgs → Estimate) (S D : Nat) (left : Nat)
    (ds : DriverState) (e : StepEnv) (es : List StepEnv) (st : LoopState) (err : Bool)
    (hc : e.createOk = true)
    (hw : writeLoop fl S D
      { statRecords := ds.statRecords ++ [{ recordTime := e.start, writtenBytes := 0 }],
        writtenTotal := 0, file := [], reports := [] } e.iters = Outcome.done (st, err)) :
    fillSteps fl S D (left + 1) ds (e :: es) =
      if left ≠ 0 then
        if e.removeOk then
          fillSteps fl S D left
            { file := none, statRecords := st.statRecords,
              log := ds.log ++ [{
                existedBefore := ds.file.isSome,
                window := ds.statRecords ++ [{ recordTime := e.start, writtenBytes := 0 }],
                writtenTotal := st.writtenTotal, fileSize := st.file.length,
                writeError := err, reports := st.reports, removed := true }] } es
        else Outcome.panic
      else
        fillSteps fl S D left
          { file := some st.file, statRecords := st.statRecords,
            log := ds.log ++ [{
              existedBefore := ds.file.isSome,
              window := ds.statRecords ++ [{ recordTime := e.start, writtenBytes := 0 }],
              writtenTotal := st.writtenTotal, fileSize := st.file.length,
              writeError := err, reports := st.reports, removed := false }] } es := by
  rw [fillSteps]
  simp only [hc, if_true, hw]

theorem fillSteps_done (fl : EstimateArgs → Estimate) (S D : Nat) (left : Nat)
    (ds : DriverState) (e : StepEnv) (es : List StepEnv) (out : DriverState)
    (h : fillSteps fl S D (left + 1) ds (e :: es) = Outcome.done out) :
    e.createOk = true ∧ ∃ st err, writeLoop fl S D
      { statRecords := ds.statRecords ++ [{ recordTime := e.start, writtenBytes := 0 }],
        writtenTotal := 0, file := [], reports := [] } e.iters = Outcome.done (st, err) := by
  rw [fillSteps] at h
  by_cases hc : e.createOk = true
  · refine ⟨hc, ?_⟩
    simp only [hc, if_true] at h
    cases hw : writeLoop fl S D
      { statRecords := ds.statRecords ++ [{ recordTime := e.start, writtenBytes := 0 }],
        writtenTotal := 0, file := [], reports := [] } e.iters with
    | done r => exact ⟨r.1, r.2, rfl⟩
    | panic => rw [hw] at h; cases h
    | exit1 => rw [hw] at h; cases h
    | running => rw [hw] at h; cases h
  · simp only [hc, Bool.false_eq_true, if_false] at h
    cases h

theorem fillSteps_shape (fl : EstimateArgs → Estimate) (S D : Nat) (left : Nat) :
    ∀ (ds : DriverState) (envs : List StepEnv) (out : DriverState),
      fillSteps fl S D (left + 1) ds envs = Outcome.done out →
      out.file.isSome = true ∧
        out.log.map StepLog.existedBefore =
          ds.log.map StepLog.existedBefore ++ (ds.file.isSome :: List.replicate left false) ∧
        out.log.map StepLog.removed =
          ds.log.map StepLog.removed ++ (List.replicate left true ++ [false]) := by
  induction left with
  | zero =>
    intro ds envs out h
    cases envs with
    | nil => rw [fillSteps_nil] at h; cases h
    | cons e es =>
      obtain ⟨hc, st, err, hw⟩ := fillSteps_done fl S D 0 ds e es out h
      rw [fillSteps_step fl S D 0 ds e es st err hc hw] at h
      simp only [ne_eq, not_true_eq_false, if_false, fillSteps_zero, Outcome.done.injEq] at h
      subst h
      simp
  | succ left ih =>
    intro ds envs out h
    cases envs with
    | nil => rw [fillSteps_nil] at h; cases h
    | cons e es =>
      obtain ⟨hc, st, err, hw⟩ := fillSteps_done fl S D (left + 1) ds e es out h
      rw [fillSteps_step fl S D (left + 1) ds e es st err hc hw] at h
      have hl : left + 1 ≠ 0 := Nat.succ_ne_zero left
      simp only [hl, ne_eq, not_false_eq_true, if_true] at h
      by_cases hr : e.removeOk = true
      · simp only [hr, if_true] at h
        have h2 := ih _ es out h
        refine ⟨h2.1, ?_, ?_⟩
        · rw [h2.2.1]
          simp [List.replicate_succ]
        · rw [h2.2.2]
          simp [List.replicate_succ]
      · simp only [hr, Bool.false_eq_true, if_false] at h
        cases h

theorem fillSteps_completes (fl : EstimateArgs → Estimate) (S D : Nat)
    (hz : ∀ a, (fl a).divByZero = false) (left : Nat) :
    ∀ (ds : DriverState) (envs : List StepEnv), envs.length = left →
      (∀ e ∈ envs, e.createOk = true ∧ e.removeOk = true ∧
        ∃ it ∈ e.iters, it.accept < it.d.length) →
      ∃ out, fillSteps fl S D left ds envs = Outcome.done out := by
  induction left with
  | zero =>
    intro ds envs _ _
    exact ⟨ds, fillSteps_zero fl S D ds envs⟩
  | succ left ih =>
    intro ds envs hlen hall
    cases envs with
    | nil => simp at hlen
    | cons e es =>
      have he := hall e (List.mem_cons_self _ _)
      have hes : ∀ x ∈ es, x.createOk = true ∧ x.removeOk = true ∧
          ∃ it ∈ x.iters, it.accept < it.d.length :=
        fun x hx => hall x (List.mem_cons_of_mem _ hx)
      have hlen2 : es.length = left := by simpa using hlen
      obtain ⟨r, hw⟩ := writeLoop_completes fl S D hz e.iters
        { statRecords := ds.statRecords ++ [{ recordTime := e.start, writtenBytes := 0 }],
          writtenTotal := 0, file := [], reports := [] } (by simp) he.2.2
      rw [fillSteps_step fl S D left ds e es r.1 r.2 he.1 hw]
      by_cases hl : left ≠ 0
      · rw [if_pos hl, if_pos he.2.1]
        exact ih _ es hlen2 hes
      · rw [if_neg hl]
        exact ih _ es hlen2 hes

/-- C6. For `fillCount ≥ 1` and a run that ends normally: the target file was absent each time
`os.Create` ran (every step but the last removed it before the next one began), the last step
did not remove it, and the file exists at the end. Steps whose write loop ended on a write
error are no exception, and a run in which creation and removal succeed and every step meets a
write error does end normally (unless the report divides by zero). -/
theorem main_files (fl : EstimateArgs → Estimate) (S D : Nat) (fillCount : Int)
    (envs : List StepEnv) (h : 1 ≤ fillCount) :
    (∀ out, main fl fillCount S D envs = Outcome.done out →
        out.file.isSome = true ∧
        out.log.map StepLog.existedBefore = List.replicate fillCount.toNat false ∧
        out.log.map StepLog.removed =
          List.replicate (fillCount.toNat - 1) true ++ [false]) ∧
      (envs.length = fillCount.toNat →
        (∀ e ∈ envs, e.createOk = true ∧ e.removeOk = true ∧
          ∃ it ∈ e.iters, it.accept < it.d.length) →
        (∀ a, (fl a).divByZero = false) →
        ∃ out, main fl fillCount S D envs = Outcome.done out) := by
  have hpos : ¬ fillCount ≤ 0 := by omega
  obtain ⟨k, hk⟩ : ∃ k, fillCount.toNat = k + 1 := ⟨fillCount.toNat - 1, by omega⟩
  unfold main
  simp only [hpos, if_false]
  rw [hk]
  refine ⟨?_, ?_⟩
  · intro out ho
    have hs := fillSteps_shape fl S D k _ envs out ho
    refine ⟨hs.1, ?_, ?_⟩
    · rw [hs.2.1]
      simp [List.replicate_succ]
    · rw [hs.2.2]
      simp
  · intro hlen hall hz
    exact fillSteps_completes fl S D hz (k + 1) _ envs hlen hall

theorem main_files_witness :
    (1 : Int) ≤ 2 ∧
      ∃ out, main (fun _ => { divByZero := false, nearly := false }) 2 0 0
        [plainStep 0 [failedWrite 100 5], plainStep 10 [fullWrite 15, failedWrite 0 16]]
          = Outcome.done out :=
  ⟨by norm_num,
    (main_files (fun _ => { divByZero := false, nearly := false }) 0 0 2
      [plainStep 0 [failedWrite 100 5], plainStep 10 [fullWrite 15, failedWrite 0 16]]
      (by norm_num)).2 (by simp)
      (by
        intro e he
        simp only [List.mem_cons, List.mem_singleton, List.not_mem_nil, or_false] at he
        rcases he with he | he
        · subst he
          exact ⟨rfl, rfl, failedWrite 100 5, by simp [plainStep],
            by simp [failedWrite, zeroBuf_length]⟩
        · subst he
          exact ⟨rfl, rfl, failedWrite 0 16, by simp [plainStep],
            by simp [failedWrite, zeroBuf_length]⟩)
      (fun _ => rfl)⟩

/-! ## The sample window across steps -/

/-- C7 (the code at the failing input). With `count = 2`: the first step takes a sample after
its write (two seconds after the start); when the write loop of the second step begins, the
window holds three samples, two of them recorded during the first step, one of which carries
the byte count 4096 of the first step. -/
theorem main_window_second_step :
    (stepLogs (main exactEstimate 2 1000 0
      [plainStep 0 [fullWrite 2000000000],
       plainStep 3000000000 [fullWrite 3000000005]])).map StepLog.window =
      [[{ recordTime := 0, writtenBytes := 0 }],
       [{ recordTime := 0, writtenBytes := 0 },
        { recordTime := 2000000000, writtenBytes := 4096 },
        { recordTime := 3000000000, writtenBytes := 0 }]] := by
  have hR : RandDataSize = 4096 := rfl
  simp [main, fillSteps, writeLoop, loopBody, targetCheck, plainStep, fullWrite,
    stepLogs, addUint64, hR, fileWrite_zeroBuf, zeroBuf_length, StatRecordSize]

/-! ## The remaining size in the report -/

/-- C10 (the code at the failing input). With `size = 40959` and ten successful writes two
seconds apart, the report runs after the ninth write (`writtenTotal = 36864`, remaining 4095)
and again after the tenth, where `writtenTotal = 40960` exceeds the target and the uint64
subtraction wraps: the remaining size computed is `2^64 - 1`. -/
theorem main_remaining_wraps :
    (stepLogs (main exactEstimate 1 40959 0
      [plainStep 0 [fullWrite 2000000000, fullWrite 4000000000, fullWrite 6000000000,
        fullWrite 8000000000, fullWrite 10000000000, fullWrite 12000000000,
        fullWrite 14000000000, fullWrite 16000000000, fullWrite 18000000000,
        fullWrite 20000000000]])).map StepLog.reports =
      [[(36864, 4095), (40960, 18446744073709551615)]] := by
  have hR : RandDataSize = 4096 := rfl
  simp [main, fillSteps, writeLoop, loopBody, targetCheck, plainStep, fullWrite,
    stepLogs, addUint64, subUint64, remainingSize, remainingTotal, exactEstimate, hR,
    fileWrite_zeroBuf, zeroBuf_length, StatRecordSize]

end RandomFill
